import Mathlib

/-!
Shallow embedding of the render-dependency scheduler in
src/SuperMarioGalaxy/SceneGraph2.ts, together with theorems checking the
natural-language specification against it.

Modelling conventions:
- GPU handles (GfxTexture, GfxAttachment) are natural numbers handed out by a
  fresh-handle counter inside GfxDevice; destroyed handles are logged.
- Fatal assertions (assert / assertExists / non-null assertions) are modelled
  by returning none from an Option-valued function.
- The sparse per-slot arrays of the TypeScript code (renderTargetIDs,
  resolveTextureOutputIDs) become total functions from the two-element slot
  type to Option Nat; an undefined array entry is none.
- The per-id arrays of the executor (use counts, alive table, resolve-texture
  table) become total functions from Nat, with 0 or none as the value of an
  absent entry, matching how the code treats holes.
- Mutation of a pooled object that is stored in the alive table is modelled by
  updating the table at its id; the code never holds an object in two places
  at once except for released resolve textures, whose only later observation
  is their immutable texture handle.
-/

namespace SceneGraph2

abbrev GfxTexture := Nat
abbrev GfxAttachment := Nat
abbrev GfxFormat := Nat

/-- The device collaborator: a fresh-handle counter plus a log of destroyed
handles, standing in for createTexture / createAttachment /
createAttachmentFromTexture / destroyTexture / destroyAttachment. -/
structure GfxDevice where
  nextId : Nat := 0
  destroyedIds : List Nat := []
deriving DecidableEq, Repr

def GfxDevice.createHandle (d : GfxDevice) : Nat × GfxDevice :=
  (d.nextId, { d with nextId := d.nextId + 1 })

def GfxDevice.destroyHandle (d : GfxDevice) (h : Nat) : GfxDevice :=
  { d with destroyedIds := d.destroyedIds ++ [h] }

/-- RenderTargetDescription from the source; clear values are Option-valued,
none standing for the literal string load. -/
structure RenderTargetDescription where
  debugName : String := ""
  pixelFormat : GfxFormat := 0
  width : Nat := 0
  height : Nat := 0
  numSamples : Nat := 0
  colorClearColor : Option Nat := none
  depthClearValue : Option Nat := none
  stencilClearValue : Option Nat := none
deriving DecidableEq, Repr, Inhabited

def RenderTargetDescription.setParameters (desc : RenderTargetDescription)
    (width height : Nat) (numSamples : Nat) : RenderTargetDescription :=
  { desc with width := width, height := height, numSamples := numSamples }

inductive RenderTargetAttachmentSlot where
  | Color0
  | DepthStencil
deriving DecidableEq, Repr, Inhabited

open RenderTargetAttachmentSlot

/-- Pointwise update of a slot-indexed sparse array. -/
def setSlot (f : RenderTargetAttachmentSlot → Option Nat)
    (slot : RenderTargetAttachmentSlot) (v : Option Nat) :
    RenderTargetAttachmentSlot → Option Nat :=
  fun s => if s = slot then v else f s

/-- Pointwise update of a Nat-indexed map. -/
def setAt {α : Type} (f : Nat → α) (i : Nat) (v : α) : Nat → α :=
  fun j => if j = i then v else f j

/-- Increment a Nat-indexed counter at one index. -/
def bump (f : Nat → Nat) (i : Nat) : Nat → Nat :=
  fun j => if j = i then f j + 1 else f j

/-- SceneGraphPassImpl input state (the fields filled in by the setup
callback; the scheduling outputs live in ScheduledPass below). -/
structure SceneGraphPassImpl where
  debugName : String := ""
  renderTargetIDs : RenderTargetAttachmentSlot → Option Nat := fun _ => none
  resolveTextureOutputIDs : RenderTargetAttachmentSlot → Option Nat := fun _ => none
  resolveTextureInputIDs : List Nat := []
  doPresent : Bool := false
deriving Inhabited

def SceneGraphPassImpl.setDebugName (p : SceneGraphPassImpl) (debugName : String) :
    SceneGraphPassImpl :=
  { p with debugName := debugName }

def SceneGraphPassImpl.attachRenderTargetID (p : SceneGraphPassImpl)
    (attachmentSlot : RenderTargetAttachmentSlot) (renderTargetID : Nat) :
    Option SceneGraphPassImpl :=
  match p.renderTargetIDs attachmentSlot with
  | some _ => none
  | none =>
    let ids := setSlot p.renderTargetIDs attachmentSlot (some renderTargetID)
    some { p with renderTargetIDs := ids }

def SceneGraphPassImpl.attachResolveTexture (p : SceneGraphPassImpl)
    (resolveTextureID : Nat) : SceneGraphPassImpl :=
  { p with resolveTextureInputIDs := p.resolveTextureInputIDs ++ [resolveTextureID] }

def SceneGraphPassImpl.present (p : SceneGraphPassImpl) : SceneGraphPassImpl :=
  { p with doPresent := true }

/-- The includes test of findLastPassForRenderTarget: does any slot of this
pass bind the given render target id? -/
def SceneGraphPassImpl.includesRenderTarget (p : SceneGraphPassImpl)
    (renderTargetID : Nat) : Bool :=
  p.renderTargetIDs Color0 == some renderTargetID ||
  p.renderTargetIDs DepthStencil == some renderTargetID

/-- The indexOf of resolveRenderTargetToColorTexture: the first slot that
binds the given render target id. -/
def SceneGraphPassImpl.slotOfRenderTarget (p : SceneGraphPassImpl)
    (renderTargetID : Nat) : Option RenderTargetAttachmentSlot :=
  if p.renderTargetIDs Color0 == some renderTargetID then some Color0
  else if p.renderTargetIDs DepthStencil == some renderTargetID then some DepthStencil
  else none

structure SceneGraph where
  renderTargetDescriptions : List RenderTargetDescription := []
  resolveTextureRenderTargetIDs : List Nat := []
  passes : List SceneGraphPassImpl := []
deriving Inhabited

structure SceneGraphBuilder where
  currentGraph : Option SceneGraph := none
deriving Inhabited

/-- begin in the source: no check at all, simply installs a fresh graph.
Wrapped in Option for uniformity with the other (failable) builder calls;
it never fails. -/
def SceneGraphBuilder.begin (_b : SceneGraphBuilder) : Option SceneGraphBuilder :=
  some { currentGraph := some {} }

/-- end in the source (renamed, end is a keyword): assertExists on the
current graph, then returns it and clears the builder. -/
def SceneGraphBuilder.endGraph (b : SceneGraphBuilder) :
    Option (SceneGraphBuilder × SceneGraph) :=
  match b.currentGraph with
  | none => none
  | some g => some ({ currentGraph := none }, g)

def SceneGraphBuilder.pushPass (b : SceneGraphBuilder)
    (setupFunc : SceneGraphPassImpl → Option SceneGraphPassImpl) :
    Option SceneGraphBuilder :=
  match b.currentGraph with
  | none => none
  | some g =>
    match setupFunc {} with
    | none => none
    | some pass => some { currentGraph := some { g with passes := g.passes ++ [pass] } }

def SceneGraphBuilder.createRenderTargetID (b : SceneGraphBuilder)
    (desc : RenderTargetDescription) : Option (SceneGraphBuilder × Nat) :=
  match b.currentGraph with
  | none => none
  | some g =>
    some ({ currentGraph := some { g with renderTargetDescriptions :=
              g.renderTargetDescriptions ++ [desc] } },
          g.renderTargetDescriptions.length)

/-- The backward scan of findLastPassForRenderTarget, by index: the source
loops i from passes.length - 1 down to 0 and returns the first pass whose
renderTargetIDs includes the id. -/
def findLastPassIdxAux (passes : List SceneGraphPassImpl) (renderTargetID : Nat) :
    Nat → Option Nat
  | 0 => none
  | n + 1 =>
    if (passes.getD n default).includesRenderTarget renderTargetID then some n
    else findLastPassIdxAux passes renderTargetID n

def findLastPassIdxForRenderTarget (passes : List SceneGraphPassImpl)
    (renderTargetID : Nat) : Option Nat :=
  findLastPassIdxAux passes renderTargetID passes.length

/-- resolveRenderTargetToColorTexture: registers a fresh resolve texture id
against the render target, finds the last pass that bound the render target
(fatal if none), and records the resolve id as that pass's copy output at the
slot where the render target is bound. -/
def SceneGraphBuilder.resolveRenderTargetToColorTexture (b : SceneGraphBuilder)
    (renderTargetID : Nat) : Option (SceneGraphBuilder × Nat) :=
  match b.currentGraph with
  | none => none
  | some g =>
    let resolveTextureID := g.resolveTextureRenderTargetIDs.length
    let g1 : SceneGraph := { g with resolveTextureRenderTargetIDs :=
      g.resolveTextureRenderTargetIDs ++ [renderTargetID] }
    match findLastPassIdxForRenderTarget g1.passes renderTargetID with
    | none => none
    | some j =>
      let pass := g1.passes.getD j default
      match pass.slotOfRenderTarget renderTargetID with
      | none => none
      | some slot =>
        let outIDs := setSlot pass.resolveTextureOutputIDs slot (some resolveTextureID)
        let pass1 : SceneGraphPassImpl := { pass with resolveTextureOutputIDs := outIDs }
        some ({ currentGraph := some { g1 with passes := g1.passes.set j pass1 } },
              resolveTextureID)

/-- Pooled sampleable copy (class ResolveTexture in the source). -/
structure ResolveTexture where
  debugName : String := ""
  pixelFormat : GfxFormat := 0
  width : Nat := 0
  height : Nat := 0
  texture : GfxTexture := 0
  age : Nat := 0
deriving DecidableEq, Repr, Inhabited

def ResolveTexture.matchesDescription (rt : ResolveTexture)
    (desc : RenderTargetDescription) : Bool :=
  rt.pixelFormat == desc.pixelFormat && rt.width == desc.width && rt.height == desc.height

def ResolveTexture.create (device : GfxDevice) (desc : RenderTargetDescription) :
    ResolveTexture × GfxDevice :=
  let p := device.createHandle
  ({ debugName := desc.debugName, pixelFormat := desc.pixelFormat,
     width := desc.width, height := desc.height, texture := p.1, age := 0 }, p.2)

def ResolveTexture.reset (rt : ResolveTexture) (desc : RenderTargetDescription) :
    Option ResolveTexture :=
  if rt.matchesDescription desc then
    some { rt with age := 0, debugName := desc.debugName }
  else none

def ResolveTexture.destroy (rt : ResolveTexture) (device : GfxDevice) : GfxDevice :=
  device.destroyHandle rt.texture

/-- Pooled physical surface (class RenderTarget in the source). A
multi-sampled target is backed only by an attachment (texture = none); a
single-sampled one is backed by a texture plus an attachment view of it. -/
structure RenderTarget where
  debugName : String := ""
  pixelFormat : GfxFormat := 0
  width : Nat := 0
  height : Nat := 0
  numSamples : Nat := 0
  needsClear : Bool := true
  texture : Option GfxTexture := none
  attachment : GfxAttachment := 0
  age : Nat := 0
deriving DecidableEq, Repr, Inhabited

def RenderTarget.matchesDescription (rt : RenderTarget)
    (desc : RenderTargetDescription) : Bool :=
  rt.pixelFormat == desc.pixelFormat && rt.width == desc.width &&
  rt.height == desc.height && rt.numSamples == desc.numSamples

def RenderTarget.create (device : GfxDevice) (desc : RenderTargetDescription) :
    Option (RenderTarget × GfxDevice) :=
  if 1 ≤ desc.numSamples then
    if 1 < desc.numSamples then
      let p := device.createHandle
      some ({ debugName := desc.debugName, pixelFormat := desc.pixelFormat,
              width := desc.width, height := desc.height, numSamples := desc.numSamples,
              needsClear := true, texture := none, attachment := p.1, age := 0 }, p.2)
    else
      let p := device.createHandle
      let q := p.2.createHandle
      some ({ debugName := desc.debugName, pixelFormat := desc.pixelFormat,
              width := desc.width, height := desc.height, numSamples := desc.numSamples,
              needsClear := true, texture := some p.1, attachment := q.1, age := 0 }, q.2)
  else none

def RenderTarget.destroy (rt : RenderTarget) (device : GfxDevice) : GfxDevice :=
  let device := match rt.texture with
    | some t => device.destroyHandle t
    | none => device
  device.destroyHandle rt.attachment

/-- The resolved execution state of one pass (descriptor plus the concrete
input textures), which the source stores back into the pass object. -/
structure GfxRenderPassDescriptor where
  colorAttachment : Option GfxAttachment := none
  colorResolveTo : Option GfxTexture := none
  depthStencilAttachment : Option GfxAttachment := none
  depthStencilResolveTo : Option GfxTexture := none
  colorClearColor : Option Nat := none
  depthClearValue : Option Nat := none
  stencilClearValue : Option Nat := none
deriving DecidableEq, Repr, Inhabited

structure ScheduledPass where
  pass : SceneGraphPassImpl
  descriptor : GfxRenderPassDescriptor := {}
  resolveTextureInputTextures : List GfxTexture := []
deriving Inhabited

/-- The mutable state of SceneGraphExecutor, device included. -/
structure SceneGraphExecutor where
  device : GfxDevice := {}
  renderTargetDeadPool : List RenderTarget := []
  resolveTextureDeadPool : List ResolveTexture := []
  renderTargetUseCount : Nat → Nat := fun _ => 0
  resolveTextureUseCount : Nat → Nat := fun _ => 0
  renderTargetAliveForID : Nat → Option RenderTarget := fun _ => none
  resolveTextureForID : Nat → Option ResolveTexture := fun _ => none

instance : Inhabited SceneGraphExecutor := ⟨{}⟩

/-- The linear pool scan of the acquire methods: returns the first entry
matching the description together with the pool with that entry spliced out,
mirroring the index loop plus splice of the source. -/
def findMatchingRenderTarget (pool : List RenderTarget)
    (desc : RenderTargetDescription) : Option (RenderTarget × List RenderTarget) :=
  match pool with
  | [] => none
  | rt :: rest =>
    if rt.matchesDescription desc then some (rt, rest)
    else
      match findMatchingRenderTarget rest desc with
      | none => none
      | some p => some (p.1, rt :: p.2)

def findMatchingResolveTexture (pool : List ResolveTexture)
    (desc : RenderTargetDescription) : Option (ResolveTexture × List ResolveTexture) :=
  match pool with
  | [] => none
  | rt :: rest =>
    if rt.matchesDescription desc then some (rt, rest)
    else
      match findMatchingResolveTexture rest desc with
      | none => none
      | some p => some (p.1, rt :: p.2)

/-- Linear scan of the render-target dead pool; on a hit the entry is removed
with its age reset, on a miss a new physical target is allocated. -/
def SceneGraphExecutor.acquireRenderTargetForDescription (st : SceneGraphExecutor)
    (desc : RenderTargetDescription) : Option (RenderTarget × SceneGraphExecutor) :=
  match findMatchingRenderTarget st.renderTargetDeadPool desc with
  | some p =>
    some ({ p.1 with age := 0 }, { st with renderTargetDeadPool := p.2 })
  | none =>
    match RenderTarget.create st.device desc with
    | none => none
    | some p => some (p.1, { st with device := p.2 })

def SceneGraphExecutor.acquireResolveTextureForDescription (st : SceneGraphExecutor)
    (desc : RenderTargetDescription) : Option (ResolveTexture × SceneGraphExecutor) :=
  match findMatchingResolveTexture st.resolveTextureDeadPool desc with
  | some p =>
    match p.1.reset desc with
    | none => none
    | some rt => some (rt, { st with resolveTextureDeadPool := p.2 })
  | none =>
    let q := ResolveTexture.create st.device desc
    some (q.1, { st with device := q.2 })

/-- The inner loop of scheduleAddUseCount over resolveTextureInputIDs: each
consumed copy id bumps its own use count and, transitively, the use count of
its originating render target. -/
def SceneGraphExecutor.addInputUses (st : SceneGraphExecutor) (graph : SceneGraph) :
    List Nat → SceneGraphExecutor
  | [] => st
  | rid :: rest =>
    let st1 : SceneGraphExecutor :=
      { st with resolveTextureUseCount := bump st.resolveTextureUseCount rid }
    let st2 : SceneGraphExecutor :=
      match graph.resolveTextureRenderTargetIDs[rid]? with
      | some renderTargetID =>
        { st1 with renderTargetUseCount := bump st1.renderTargetUseCount renderTargetID }
      | none => st1
    st2.addInputUses graph rest

/-- scheduleAddUseCount: each bound slot bumps its render target's use count;
then the consumed copy ids are processed by addInputUses. -/
def SceneGraphExecutor.scheduleAddUseCount (st : SceneGraphExecutor)
    (graph : SceneGraph) (pass : SceneGraphPassImpl) : SceneGraphExecutor :=
  let st1 : SceneGraphExecutor :=
    match pass.renderTargetIDs Color0 with
    | some renderTargetID =>
      { st with renderTargetUseCount := bump st.renderTargetUseCount renderTargetID }
    | none => st
  let st2 : SceneGraphExecutor :=
    match pass.renderTargetIDs DepthStencil with
    | some renderTargetID =>
      { st1 with renderTargetUseCount := bump st1.renderTargetUseCount renderTargetID }
    | none => st1
  st2.addInputUses graph pass.resolveTextureInputIDs

/-- acquireRenderTargetForID: asserts a positive use count, and lazily
acquires a physical target into the alive table on first touch. -/
def SceneGraphExecutor.acquireRenderTargetForID (st : SceneGraphExecutor)
    (graph : SceneGraph) (renderTargetID : Option Nat) :
    Option (Option RenderTarget × SceneGraphExecutor) :=
  match renderTargetID with
  | none => some (none, st)
  | some id =>
    if 0 < st.renderTargetUseCount id then
      match st.renderTargetAliveForID id with
      | some rt => some (some rt, st)
      | none =>
        match graph.renderTargetDescriptions[id]? with
        | none => none
        | some desc =>
          match st.acquireRenderTargetForDescription desc with
          | none => none
          | some p =>
            let alive := setAt p.2.renderTargetAliveForID id (some p.1)
            some (some p.1, { p.2 with renderTargetAliveForID := alive })
    else none

/-- releaseRenderTargetForID: asserts a positive use count, decrements it,
and on reaching zero steals the target from the alive table (needsClear reset
to true) and returns it to the dead pool. -/
def SceneGraphExecutor.releaseRenderTargetForID (st : SceneGraphExecutor)
    (renderTargetID : Option Nat) : Option SceneGraphExecutor :=
  match renderTargetID with
  | none => some st
  | some id =>
    if 0 < st.renderTargetUseCount id then
      let newCount := st.renderTargetUseCount id - 1
      let counts := setAt st.renderTargetUseCount id newCount
      if newCount = 0 then
        match st.renderTargetAliveForID id with
        | none => none
        | some rt =>
          let alive := setAt st.renderTargetAliveForID id none
          some { st with renderTargetUseCount := counts,
                         renderTargetAliveForID := alive,
                         renderTargetDeadPool :=
                           st.renderTargetDeadPool ++ [{ rt with needsClear := true }] }
      else some { st with renderTargetUseCount := counts }
    else none

/-- acquireResolveTextureOutputForID: checks the copy id's origin and use
count, and produces a physical copy only when the source target is not
already texture-backed; a single-sampled source needs no resolve. -/
def SceneGraphExecutor.acquireResolveTextureOutputForID (st : SceneGraphExecutor)
    (graph : SceneGraph) (srcRenderTargetID : Option Nat)
    (resolveTextureID : Option Nat) : Option (Option GfxTexture × SceneGraphExecutor) :=
  match resolveTextureID with
  | none => some (none, st)
  | some rid =>
    if srcRenderTargetID == graph.resolveTextureRenderTargetIDs[rid]? then
      if 0 < st.resolveTextureUseCount rid then
        match srcRenderTargetID with
        | none => none
        | some srcId =>
          match st.renderTargetAliveForID srcId with
          | none => none
          | some renderTarget =>
            match renderTarget.texture with
            | some _ => some (none, st)
            | none =>
              match st.resolveTextureForID rid with
              | some resolveTexture => some (some resolveTexture.texture, st)
              | none =>
                match graph.renderTargetDescriptions[srcId]? with
                | none => none
                | some desc =>
                  match st.acquireResolveTextureForDescription desc with
                  | none => none
                  | some p =>
                    let table := setAt p.2.resolveTextureForID rid (some p.1)
                    some (some p.1.texture, { p.2 with resolveTextureForID := table })
      else none
    else none

/-- acquireResolveTextureInputTextureForID: prefer the produced physical
copy; otherwise fall back to the (texture-backed) source target. Either way
one reference of the originating target is released. -/
def SceneGraphExecutor.acquireResolveTextureInputTextureForID (st : SceneGraphExecutor)
    (graph : SceneGraph) (resolveTextureID : Nat) :
    Option (GfxTexture × SceneGraphExecutor) :=
  let renderTargetID := graph.resolveTextureRenderTargetIDs[resolveTextureID]?
  match st.resolveTextureForID resolveTextureID with
  | some resolveTexture =>
    match st.releaseRenderTargetForID renderTargetID with
    | none => none
    | some st1 => some (resolveTexture.texture, st1)
  | none =>
    match renderTargetID with
    | none => none
    | some rtid =>
      match st.renderTargetAliveForID rtid with
      | none => none
      | some renderTarget =>
        match st.releaseRenderTargetForID (some rtid) with
        | none => none
        | some st1 =>
          match renderTarget.texture with
          | none => none
          | some tex => some (tex, st1)

/-- releaseResolveTextureInputForID: decrement; on reaching zero push the
physical copy (if one was ever produced) back to the dead pool, while leaving
it in the per-id table for the execution scope. -/
def SceneGraphExecutor.releaseResolveTextureInputForID (st : SceneGraphExecutor)
    (resolveTextureID : Option Nat) : Option SceneGraphExecutor :=
  match resolveTextureID with
  | none => some st
  | some rid =>
    if 0 < st.resolveTextureUseCount rid then
      let newCount := st.resolveTextureUseCount rid - 1
      let counts := setAt st.resolveTextureUseCount rid newCount
      if newCount = 0 then
        match st.resolveTextureForID rid with
        | some resolveTexture =>
          some { st with resolveTextureUseCount := counts,
                         resolveTextureDeadPool :=
                           st.resolveTextureDeadPool ++ [resolveTexture] }
        | none => some { st with resolveTextureUseCount := counts }
      else some { st with resolveTextureUseCount := counts }
    else none

/-- The first half of schedulePass: acquire the physical targets for both
attachment slots, in slot order. -/
def SceneGraphExecutor.scheduleAttachments (st : SceneGraphExecutor)
    (graph : SceneGraph) (pass : SceneGraphPassImpl) :
    Option ((Option RenderTarget × Option RenderTarget) × SceneGraphExecutor) :=
  match st.acquireRenderTargetForID graph (pass.renderTargetIDs Color0) with
  | none => none
  | some c =>
    match c.2.acquireRenderTargetForID graph (pass.renderTargetIDs DepthStencil) with
    | none => none
    | some d => some ((c.1, d.1), d.2)

/-- The clear-vs-load choice of schedulePass for one slot: an explicit clear
value is used exactly when a target is bound and still flagged needsClear;
otherwise load (none). The description lookup only happens in the clear case,
as in the source. -/
def clearValueFor (graph : SceneGraph) (renderTargetID : Option Nat)
    (renderTarget : Option RenderTarget)
    (f : RenderTargetDescription → Option Nat) : Option (Option Nat) :=
  match renderTarget, renderTargetID with
  | none, _ => some none
  | some rt, some id =>
    if rt.needsClear then (graph.renderTargetDescriptions[id]?).map f else some none
  | some _, none => none

/-- After the descriptor is filled in, the touched targets drop their
needsClear flag. The source mutates the acquired object in place; here the
alive table (which holds that object) is updated. -/
def SceneGraphExecutor.markTouched (st : SceneGraphExecutor)
    (renderTargetID : Option Nat) : SceneGraphExecutor :=
  match renderTargetID with
  | none => st
  | some id =>
    match st.renderTargetAliveForID id with
    | none => st
    | some rt =>
      let alive := setAt st.renderTargetAliveForID id (some { rt with needsClear := false })
      { st with renderTargetAliveForID := alive }

/-- The assertion block of schedulePass: if both slots are bound their pixel
parameters must agree. -/
def attachmentsCompatible (c0 ds : Option RenderTarget) : Bool :=
  match c0, ds with
  | some c, some d => c.width == d.width && c.height == d.height && c.numSamples == d.numSamples
  | _, _ => true

/-- The input loop of schedulePass: resolve each consumed copy id to a
concrete texture, in order. -/
def SceneGraphExecutor.scheduleInputs (st : SceneGraphExecutor) (graph : SceneGraph) :
    List Nat → Option (List GfxTexture × SceneGraphExecutor)
  | [] => some ([], st)
  | rid :: rest =>
    match st.acquireResolveTextureInputTextureForID graph rid with
    | none => none
    | some p =>
      match p.2.scheduleInputs graph rest with
      | none => none
      | some q => some (p.1 :: q.1, q.2)

/-- The first release loop of schedulePass, over the slot-bound render target
ids. -/
def SceneGraphExecutor.releaseRenderTargets (st : SceneGraphExecutor) :
    List (Option Nat) → Option SceneGraphExecutor
  | [] => some st
  | id :: rest =>
    match st.releaseRenderTargetForID id with
    | none => none
    | some st1 => st1.releaseRenderTargets rest

/-- The second release loop of schedulePass, over the consumed copy ids. -/
def SceneGraphExecutor.releaseResolveTextureInputs (st : SceneGraphExecutor) :
    List Nat → Option SceneGraphExecutor
  | [] => some st
  | rid :: rest =>
    match st.releaseResolveTextureInputForID (some rid) with
    | none => none
    | some st1 => st1.releaseResolveTextureInputs rest

/-- schedulePass, in source order: acquire both slots, fill in the clear
values, resolve the output copy targets (a present pass sends Color0 to the
external presentation texture instead), drop the needsClear flags, check the
slots are compatible, resolve the input textures, then release every slot
reference and every input reference. -/
def SceneGraphExecutor.schedulePass (st : SceneGraphExecutor) (graph : SceneGraph)
    (pass : SceneGraphPassImpl) (presentColorTexture : Option GfxTexture) :
    Option (ScheduledPass × SceneGraphExecutor) :=
  let color0ID := pass.renderTargetIDs Color0
  let depthStencilID := pass.renderTargetIDs DepthStencil
  match st.scheduleAttachments graph pass with
  | none => none
  | some a =>
    let color0RenderTarget := a.1.1
    let depthStencilRenderTarget := a.1.2
    let st := a.2
    match clearValueFor graph color0ID color0RenderTarget (fun d => d.colorClearColor) with
    | none => none
    | some colorClearColor =>
      match clearValueFor graph depthStencilID depthStencilRenderTarget (fun d => d.depthClearValue) with
      | none => none
      | some depthClearValue =>
        match clearValueFor graph depthStencilID depthStencilRenderTarget (fun d => d.stencilClearValue) with
        | none => none
        | some stencilClearValue =>
          match (if pass.doPresent then some (presentColorTexture, st)
                 else st.acquireResolveTextureOutputForID graph color0ID (pass.resolveTextureOutputIDs Color0)) with
          | none => none
          | some r =>
            let colorResolveTo := r.1
            let st := r.2
            match st.acquireResolveTextureOutputForID graph depthStencilID (pass.resolveTextureOutputIDs DepthStencil) with
            | none => none
            | some r2 =>
              let depthStencilResolveTo := r2.1
              let st := (r2.2.markTouched color0ID).markTouched depthStencilID
              if attachmentsCompatible color0RenderTarget depthStencilRenderTarget then
                match st.scheduleInputs graph pass.resolveTextureInputIDs with
                | none => none
                | some q =>
                  match q.2.releaseRenderTargets [color0ID, depthStencilID] with
                  | none => none
                  | some st1 =>
                    match st1.releaseResolveTextureInputs pass.resolveTextureInputIDs with
                    | none => none
                    | some st2 =>
                      some ({ pass := pass,
                              descriptor := {
                                colorAttachment := color0RenderTarget.map (fun rt => rt.attachment),
                                colorResolveTo := colorResolveTo,
                                depthStencilAttachment := depthStencilRenderTarget.map (fun rt => rt.attachment),
                                depthStencilResolveTo := depthStencilResolveTo,
                                colorClearColor := colorClearColor,
                                depthClearValue := depthClearValue,
                                stencilClearValue := stencilClearValue },
                              resolveTextureInputTextures := q.1 }, st2)
              else none

/-- The start-of-frame ageing sweep: every pooled resource gets one cycle
older. -/
def SceneGraphExecutor.ageDeadPools (st : SceneGraphExecutor) : SceneGraphExecutor :=
  { st with renderTargetDeadPool := st.renderTargetDeadPool.map (fun rt => { rt with age := rt.age + 1 }),
            resolveTextureDeadPool := st.resolveTextureDeadPool.map (fun rt => { rt with age := rt.age + 1 }) }

/-- fillArray of the two use-count accumulators with zero. -/
def SceneGraphExecutor.resetUseCounts (st : SceneGraphExecutor) : SceneGraphExecutor :=
  { st with renderTargetUseCount := fun _ => 0, resolveTextureUseCount := fun _ => 0 }

/-- Pass A of scheduleGraph: count every use of every resource. -/
def SceneGraphExecutor.countGraphUses (st : SceneGraphExecutor) (graph : SceneGraph) :
    SceneGraphExecutor :=
  graph.passes.foldl (fun s p => s.scheduleAddUseCount graph p) st

/-- Pass B of scheduleGraph: hand out resources to the passes in order. -/
def SceneGraphExecutor.schedulePasses (st : SceneGraphExecutor) (graph : SceneGraph)
    (presentColorTexture : Option GfxTexture) :
    List SceneGraphPassImpl → Option (List ScheduledPass × SceneGraphExecutor)
  | [] => some ([], st)
  | p :: rest =>
    match st.schedulePass graph p presentColorTexture with
    | none => none
    | some r =>
      match r.2.schedulePasses graph presentColorTexture rest with
      | none => none
      | some q => some (r.1 :: q.1, q.2)

/-- The end-of-scheduling assertion block: every use count is back to zero
and the alive table is empty. -/
def SceneGraphExecutor.checkCountsClear (st : SceneGraphExecutor) (graph : SceneGraph) :
    Bool :=
  ((List.range graph.renderTargetDescriptions.length).all
    (fun i => st.renderTargetUseCount i == 0)) &&
  ((List.range graph.resolveTextureRenderTargetIDs.length).all
    (fun i => st.resolveTextureUseCount i == 0)) &&
  ((List.range graph.renderTargetDescriptions.length).all
    (fun i => (st.renderTargetAliveForID i).isNone))

def ageThreshold : Nat := 1

/-- The end-of-frame eviction scan over the render-target dead pool, scanning
in order; an entry at or past the age threshold is destroyed and dropped. -/
def destroyAgedRenderTargets (device : GfxDevice) :
    List RenderTarget → List RenderTarget × GfxDevice
  | [] => ([], device)
  | rt :: rest =>
    if ageThreshold ≤ rt.age then destroyAgedRenderTargets (rt.destroy device) rest
    else
      let p := destroyAgedRenderTargets device rest
      (rt :: p.1, p.2)

def destroyAgedResolveTextures (device : GfxDevice) :
    List ResolveTexture → List ResolveTexture × GfxDevice
  | [] => ([], device)
  | rt :: rest =>
    if ageThreshold ≤ rt.age then destroyAgedResolveTextures (rt.destroy device) rest
    else
      let p := destroyAgedResolveTextures device rest
      (rt :: p.1, p.2)

/-- The core of scheduleGraph: age the pools, zero the accumulators, count
(Pass A), then hand out (Pass B). -/
def SceneGraphExecutor.scheduleGraphCore (st : SceneGraphExecutor) (graph : SceneGraph)
    (presentColorTexture : Option GfxTexture) :
    Option (List ScheduledPass × SceneGraphExecutor) :=
  let st := st.ageDeadPools
  let st := st.resetUseCounts
  let st := st.countGraphUses graph
  st.schedulePasses graph presentColorTexture graph.passes

/-- scheduleGraph: the core pipeline, the zero assertions, then the age-based
eviction sweep and clearing of the transient accumulators. -/
def SceneGraphExecutor.scheduleGraph (st : SceneGraphExecutor) (graph : SceneGraph)
    (presentColorTexture : Option GfxTexture) :
    Option (List ScheduledPass × SceneGraphExecutor) :=
  match st.scheduleGraphCore graph presentColorTexture with
  | none => none
  | some r =>
    let st := r.2
    if st.checkCountsClear graph then
      let p := destroyAgedRenderTargets st.device st.renderTargetDeadPool
      let q := destroyAgedResolveTextures p.2 st.resolveTextureDeadPool
      some (r.1, { st with device := q.2,
                           renderTargetDeadPool := p.1,
                           resolveTextureDeadPool := q.1,
                           renderTargetUseCount := fun _ => 0,
                           resolveTextureUseCount := fun _ => 0 })
    else none

/-- execPass: building and submitting the device render pass allocates one
device-side pass object; the user callback is a black box and not modelled. -/
def SceneGraphExecutor.execPass (st : SceneGraphExecutor) (_sp : ScheduledPass) :
    SceneGraphExecutor :=
  { st with device := (st.device.createHandle).2 }

/-- execGraph: schedule, execute every pass in order, then clear the per-id
resolve-texture scope table. -/
def SceneGraphExecutor.execGraph (st : SceneGraphExecutor) (graph : SceneGraph)
    (presentColorTexture : Option GfxTexture) :
    Option (List ScheduledPass × SceneGraphExecutor) :=
  match st.scheduleGraph graph presentColorTexture with
  | none => none
  | some r =>
    let st := r.1.foldl SceneGraphExecutor.execPass r.2
    some (r.1, { st with resolveTextureForID := fun _ => none })

/-- The scope lookup available inside a pass callback: fatal unless the
executing pass declared the copy id as an input; returns the texture resolved
for it during scheduling. -/
def getResolveTextureForID (sp : ScheduledPass) (resolveTextureID : Nat) :
    Option GfxTexture :=
  match sp.pass.resolveTextureInputIDs.findIdx? (fun x => x == resolveTextureID) with
  | none => none
  | some i => sp.resolveTextureInputTextures[i]?

/-!
## Counting contributions

These transcribe the Pass A description of the spec: every bound slot
contributes one use to its surface, and every consumed copy id contributes
one use to the copy and one to its originating surface. They are compared
against scheduleAddUseCount (claim C3) and drive the accounting behind the
zero-at-end invariant (claim C1).
-/

/-- Uses contributed to render target id by the bound slots of one pass. -/
def slotContrib (pass : SceneGraphPassImpl) (id : Nat) : Nat :=
  (if pass.renderTargetIDs Color0 = some id then 1 else 0) +
  (if pass.renderTargetIDs DepthStencil = some id then 1 else 0)

/-- Uses contributed to render target id by a list of consumed copy ids
(one per input whose originating surface is id). -/
def inputContrib (graph : SceneGraph) (ids : List Nat) (id : Nat) : Nat :=
  ids.countP (fun rid => graph.resolveTextureRenderTargetIDs[rid]? == some id)

/-- Total uses contributed to render target id by one pass. -/
def rtContrib (graph : SceneGraph) (pass : SceneGraphPassImpl) (id : Nat) : Nat :=
  slotContrib pass id + inputContrib graph pass.resolveTextureInputIDs id

/-- Uses contributed to copy id rid by a list of consumed copy ids. -/
def resolveContribOf (ids : List Nat) (rid : Nat) : Nat :=
  ids.countP (fun x => x == rid)

/-- Uses contributed to copy id rid by one pass. -/
def resolveContrib (pass : SceneGraphPassImpl) (rid : Nat) : Nat :=
  resolveContribOf pass.resolveTextureInputIDs rid

theorem addInputUses_rtCount (graph : SceneGraph) (ids : List Nat) :
    ∀ (st : SceneGraphExecutor) (id : Nat),
      (st.addInputUses graph ids).renderTargetUseCount id =
        st.renderTargetUseCount id + inputContrib graph ids id := by
  induction ids with
  | nil => intro st id; simp [SceneGraphExecutor.addInputUses, inputContrib]
  | cons rid rest ih =>
    intro st id
    simp only [SceneGraphExecutor.addInputUses]
    cases h : graph.resolveTextureRenderTargetIDs[rid]? with
    | none =>
      rw [ih]
      simp [inputContrib, List.countP_cons, h]
    | some rtid =>
      rw [ih]
      simp only [inputContrib, List.countP_cons, h]
      by_cases hij : rtid = id
      · subst hij; simp [bump]; omega
      · simp [bump, hij, Ne.symm hij]

theorem addInputUses_resolveCount (graph : SceneGraph) (ids : List Nat) :
    ∀ (st : SceneGraphExecutor) (rid : Nat),
      (st.addInputUses graph ids).resolveTextureUseCount rid =
        st.resolveTextureUseCount rid + resolveContribOf ids rid := by
  induction ids with
  | nil => intro st rid; simp [SceneGraphExecutor.addInputUses, resolveContribOf]
  | cons x rest ih =>
    intro st rid
    simp only [SceneGraphExecutor.addInputUses]
    cases h : graph.resolveTextureRenderTargetIDs[x]? with
    | none =>
      rw [ih]
      simp only [resolveContribOf, List.countP_cons]
      by_cases hx : x = rid
      · subst hx; simp [bump]; omega
      · simp [bump, hx, Ne.symm hx]
    | some rtid =>
      rw [ih]
      simp only [resolveContribOf, List.countP_cons]
      by_cases hx : x = rid
      · subst hx; simp [bump]; omega
      · simp [bump, hx, Ne.symm hx]

theorem addInputUses_alive (graph : SceneGraph) (ids : List Nat) :
    ∀ (st : SceneGraphExecutor),
      (st.addInputUses graph ids).renderTargetAliveForID = st.renderTargetAliveForID := by
  induction ids with
  | nil => intro st; rfl
  | cons x rest ih =>
    intro st
    simp only [SceneGraphExecutor.addInputUses]
    cases h : graph.resolveTextureRenderTargetIDs[x]? <;> simp [h, ih]

/-- Helper: the exact counting effect of scheduleAddUseCount. -/
theorem scheduleAddUseCount_counts (st : SceneGraphExecutor)
    (graph : SceneGraph) (pass : SceneGraphPassImpl) :
    (∀ id, (st.scheduleAddUseCount graph pass).renderTargetUseCount id =
      st.renderTargetUseCount id + rtContrib graph pass id) ∧
    (∀ rid, (st.scheduleAddUseCount graph pass).resolveTextureUseCount rid =
      st.resolveTextureUseCount rid + resolveContrib pass rid) := by
  constructor
  · intro id
    simp only [SceneGraphExecutor.scheduleAddUseCount]
    rw [addInputUses_rtCount]
    simp only [rtContrib, slotContrib]
    cases h0 : pass.renderTargetIDs Color0 with
    | none =>
      cases h1 : pass.renderTargetIDs DepthStencil with
      | none => simp [h0, h1]
      | some a =>
        by_cases ha : a = id
        · subst ha; simp [h0, h1, bump]; omega
        · simp [h0, h1, bump, ha, Ne.symm ha]
    | some a =>
      cases h1 : pass.renderTargetIDs DepthStencil with
      | none =>
        by_cases ha : a = id
        · subst ha; simp [h0, h1, bump]; omega
        · simp [h0, h1, bump, ha, Ne.symm ha]
      | some b =>
        by_cases ha : a = id <;> by_cases hb : b = id
        · subst ha; subst hb; simp [h0, h1, bump]; omega
        · subst ha; simp [h0, h1, bump, hb, Ne.symm hb]; omega
        · subst hb; simp [h0, h1, bump, ha, Ne.symm ha]; omega
        · simp [h0, h1, bump, ha, hb, Ne.symm ha, Ne.symm hb]
  · intro rid
    simp only [SceneGraphExecutor.scheduleAddUseCount]
    rw [addInputUses_resolveCount]
    simp only [resolveContrib]
    cases h0 : pass.renderTargetIDs Color0 <;>
      cases h1 : pass.renderTargetIDs DepthStencil <;> simp [h0, h1]

/-- C3: during Pass A, scheduleAddUseCount adds, for every pass, exactly one
use per bound slot to the slot's surface, and exactly one use to each
consumed copy id plus one transitive use to its originating surface; unbound
slots add nothing. -/
theorem scheduleAddUseCount_matches_contrib (st : SceneGraphExecutor)
    (graph : SceneGraph) (pass : SceneGraphPassImpl) :
    (∀ id, (st.scheduleAddUseCount graph pass).renderTargetUseCount id =
      st.renderTargetUseCount id + rtContrib graph pass id) ∧
    (∀ rid, (st.scheduleAddUseCount graph pass).resolveTextureUseCount rid =
      st.resolveTextureUseCount rid + resolveContrib pass rid) :=
  scheduleAddUseCount_counts st graph pass

/-- C7 counterexample: with a graph already under construction, begin is not
a fatal error; the source's begin performs no check at all. -/
theorem begin_nested_not_fatal :
    ({ currentGraph := some {} } : SceneGraphBuilder).currentGraph.isSome = true ∧
    (({ currentGraph := some {} } : SceneGraphBuilder).begin).isSome = true :=
  ⟨rfl, rfl⟩

/-- C7 amended: begin never fails — called while a graph is under
construction it silently discards that graph and starts a fresh one — while
end with no graph under construction is a fatal error, and end with one
returns it and clears the builder. -/
theorem begin_end_bracket :
    (∀ b : SceneGraphBuilder, b.begin = some { currentGraph := some {} }) ∧
    (SceneGraphBuilder.endGraph { currentGraph := none } = none) ∧
    (∀ g : SceneGraph,
      SceneGraphBuilder.endGraph { currentGraph := some g } =
        some ({ currentGraph := none }, g)) :=
  ⟨fun _ => rfl, rfl, fun _ => rfl⟩

/-!
## C2: request_copy
-/

theorem findLastPassIdxAux_some (passes : List SceneGraphPassImpl) (id : Nat) :
    ∀ n j, findLastPassIdxAux passes id n = some j →
      j < n ∧ (passes.getD j default).includesRenderTarget id = true ∧
      ∀ k, j < k → k < n → (passes.getD k default).includesRenderTarget id = false := by
  intro n
  induction n with
  | zero => intro j h; simp [findLastPassIdxAux] at h
  | succ m ih =>
    intro j h
    simp only [findLastPassIdxAux] at h
    by_cases hc : (passes.getD m default).includesRenderTarget id = true
    · rw [if_pos hc] at h
      cases h
      exact ⟨Nat.lt_succ_self m, hc, fun k hk1 hk2 => by omega⟩
    · rw [if_neg hc] at h
      obtain ⟨h1, h2, h3⟩ := ih j h
      refine ⟨by omega, h2, ?_⟩
      intro k hk1 hk2
      by_cases hkm : k = m
      · subst hkm
        simpa using hc
      · exact h3 k hk1 (by omega)

theorem findLastPassIdxAux_none (passes : List SceneGraphPassImpl) (id : Nat) :
    ∀ n, findLastPassIdxAux passes id n = none ↔
      ∀ k, k < n → (passes.getD k default).includesRenderTarget id = false := by
  intro n
  induction n with
  | zero => simp [findLastPassIdxAux]
  | succ m ih =>
    simp only [findLastPassIdxAux]
    by_cases hc : (passes.getD m default).includesRenderTarget id = true
    · rw [if_pos hc]
      constructor
      · intro h; cases h
      · intro h
        have := h m (Nat.lt_succ_self m)
        rw [hc] at this
        cases this
    · rw [if_neg hc, ih]
      constructor
      · intro h k hk
        by_cases hkm : k = m
        · subst hkm; simpa using hc
        · exact h k (by omega)
      · intro h k hk
        exact h k (by omega)

theorem slotOf_of_includes (p : SceneGraphPassImpl) (id : Nat)
    (h : p.includesRenderTarget id = true) :
    ∃ slot, p.slotOfRenderTarget id = some slot ∧ p.renderTargetIDs slot = some id := by
  simp only [SceneGraphPassImpl.includesRenderTarget, Bool.or_eq_true, beq_iff_eq] at h
  simp only [SceneGraphPassImpl.slotOfRenderTarget]
  by_cases h0 : p.renderTargetIDs Color0 = some id
  · exact ⟨Color0, by simp [h0], h0⟩
  · have h1 : p.renderTargetIDs DepthStencil = some id := by tauto
    refine ⟨DepthStencil, ?_, h1⟩
    simp [h0, h1]

/-- The graph transformation performed by a successful request_copy: the
discovered pass gains the fresh copy id as its copy output at the slot where
the surface is bound. -/
def recordCopyOutput (p : SceneGraphPassImpl) (slot : RenderTargetAttachmentSlot)
    (rid : Nat) : SceneGraphPassImpl :=
  { p with resolveTextureOutputIDs := setSlot p.resolveTextureOutputIDs slot (some rid) }

/-- The full behaviour claimed for request_copy on a builder whose current
graph is g: failure exactly when no appended pass binds the surface; on
success, a fresh copy id registered against the surface and recorded at the
binding slot of the most recent binding pass. -/
def requestCopyProp (b : SceneGraphBuilder) (g : SceneGraph) (renderTargetID : Nat) :
    Prop :=
  (b.resolveRenderTargetToColorTexture renderTargetID = none ↔
    ∀ p ∈ g.passes, p.includesRenderTarget renderTargetID = false) ∧
  (∀ b' rid, b.resolveRenderTargetToColorTexture renderTargetID = some (b', rid) →
    rid = g.resolveTextureRenderTargetIDs.length ∧
    ∃ j slot,
      j < g.passes.length ∧
      (g.passes.getD j default).includesRenderTarget renderTargetID = true ∧
      (∀ k, j < k → k < g.passes.length →
        (g.passes.getD k default).includesRenderTarget renderTargetID = false) ∧
      (g.passes.getD j default).slotOfRenderTarget renderTargetID = some slot ∧
      (g.passes.getD j default).renderTargetIDs slot = some renderTargetID ∧
      b'.currentGraph = some
        { renderTargetDescriptions := g.renderTargetDescriptions,
          resolveTextureRenderTargetIDs := g.resolveTextureRenderTargetIDs ++ [renderTargetID],
          passes := g.passes.set j (recordCopyOutput (g.passes.getD j default) slot rid) })

/-- C2: request_copy fails exactly when no previously appended pass binds the
surface in any slot; on success it returns the fresh copy id (the next index
of the copy map), registers it against the surface, and records it as the
copy output — at the slot binding the surface — of the most recent pass that
bound it (every later pass does not bind it), so a copy requested between two
sequential writers attaches to the earlier writer. -/
theorem resolveRenderTargetToColorTexture_spec (b : SceneGraphBuilder)
    (g : SceneGraph) (renderTargetID : Nat) (hb : b.currentGraph = some g) :
    requestCopyProp b g renderTargetID := by
  unfold requestCopyProp
  have hmem : (∀ p ∈ g.passes, p.includesRenderTarget renderTargetID = false) ↔
      (∀ k, k < g.passes.length →
        (g.passes.getD k default).includesRenderTarget renderTargetID = false) := by
    constructor
    · intro h k hk
      have : g.passes.getD k default ∈ g.passes := by
        rw [List.getD_eq_getElem g.passes default hk]
        exact List.getElem_mem hk
      exact h _ this
    · intro h p hp
      obtain ⟨k, hk, hpk⟩ := List.mem_iff_getElem.mp hp
      have := h k hk
      rw [List.getD_eq_getElem g.passes default hk, hpk] at this
      exact this
  constructor
  · simp only [SceneGraphBuilder.resolveRenderTargetToColorTexture, hb]
    cases hf : findLastPassIdxForRenderTarget g.passes renderTargetID with
    | none =>
      simp only [hf]
      constructor
      · intro _
        exact hmem.mpr ((findLastPassIdxAux_none g.passes renderTargetID g.passes.length).mp hf)
      · intro _; trivial
    | some j =>
      obtain ⟨hj1, hj2, _⟩ := findLastPassIdxAux_some g.passes renderTargetID g.passes.length j hf
      obtain ⟨slot, hs1, _⟩ := slotOf_of_includes _ _ hj2
      simp only [hf, hs1]
      constructor
      · intro h; simp at h
      · intro h
        have := hmem.mp h j hj1
        rw [hj2] at this
        simp at this
  · intro b' rid h
    simp only [SceneGraphBuilder.resolveRenderTargetToColorTexture, hb] at h
    cases hf : findLastPassIdxForRenderTarget g.passes renderTargetID with
    | none =>
      simp only [hf] at h
      exact Option.noConfusion h
    | some j =>
      simp only [hf] at h
      obtain ⟨hj1, hj2, hj3⟩ := findLastPassIdxAux_some g.passes renderTargetID g.passes.length j hf
      obtain ⟨slot, hs1, hs2⟩ := slotOf_of_includes _ _ hj2
      simp only [hs1, Option.some.injEq, Prod.mk.injEq] at h
      obtain ⟨hb', hrid⟩ := h
      subst hrid
      refine ⟨rfl, j, slot, hj1, hj2, hj3, hs1, hs2, ?_⟩
      rw [← hb']
      rfl

/-- A one-pass graph binding surface 0 at Color0, used as concrete input. -/
def c2Pass : SceneGraphPassImpl :=
  { renderTargetIDs := fun s => if s = Color0 then some 0 else none }

def c2Graph : SceneGraph :=
  { renderTargetDescriptions := [{ debugName := "t", width := 1, height := 1, numSamples := 1 }],
    resolveTextureRenderTargetIDs := [],
    passes := [c2Pass] }

def c2Builder : SceneGraphBuilder := { currentGraph := some c2Graph }

theorem resolveRenderTargetToColorTexture_spec_witness :
    c2Builder.currentGraph = some c2Graph ∧ requestCopyProp c2Builder c2Graph 0 :=
  ⟨rfl, resolveRenderTargetToColorTexture_spec c2Builder c2Graph 0 rfl⟩

/-!
## C8: pool ageing, eviction and reuse
-/

theorem destroyAgedRenderTargets_spec (pool : List RenderTarget) :
    ∀ device, destroyAgedRenderTargets device pool =
      (pool.filter (fun rt => rt.age < ageThreshold),
       (pool.filter (fun rt => ageThreshold ≤ rt.age)).foldl
         (fun d rt => rt.destroy d) device) := by
  induction pool with
  | nil => intro device; simp [destroyAgedRenderTargets]
  | cons rt rest ih =>
    intro device
    simp only [destroyAgedRenderTargets]
    by_cases hc : ageThreshold ≤ rt.age
    · rw [if_pos hc, ih]
      have h1 : ¬rt.age < ageThreshold := by omega
      simp [List.filter_cons, hc, h1]
    · rw [if_neg hc, ih]
      have h1 : rt.age < ageThreshold := by omega
      simp [List.filter_cons, hc, h1]

theorem destroyAgedResolveTextures_spec (pool : List ResolveTexture) :
    ∀ device, destroyAgedResolveTextures device pool =
      (pool.filter (fun rt => rt.age < ageThreshold),
       (pool.filter (fun rt => ageThreshold ≤ rt.age)).foldl
         (fun d rt => rt.destroy d) device) := by
  induction pool with
  | nil => intro device; simp [destroyAgedResolveTextures]
  | cons rt rest ih =>
    intro device
    simp only [destroyAgedResolveTextures]
    by_cases hc : ageThreshold ≤ rt.age
    · rw [if_pos hc, ih]
      have h1 : ¬rt.age < ageThreshold := by omega
      simp [List.filter_cons, hc, h1]
    · rw [if_neg hc, ih]
      have h1 : rt.age < ageThreshold := by omega
      simp [List.filter_cons, hc, h1]

theorem findMatchingRenderTarget_of_exists (desc : RenderTargetDescription)
    (pool : List RenderTarget) (h : ∃ rt ∈ pool, rt.matchesDescription desc = true) :
    ∃ p, findMatchingRenderTarget pool desc = some p ∧
      p.1 ∈ pool ∧ p.1.matchesDescription desc = true ∧ ∀ x ∈ p.2, x ∈ pool := by
  induction pool with
  | nil => simp at h
  | cons rt rest ih =>
    simp only [findMatchingRenderTarget]
    by_cases hc : rt.matchesDescription desc = true
    · rw [if_pos hc]
      exact ⟨(rt, rest), rfl, by simp, hc, fun x hx => by simp [hx]⟩
    · rw [if_neg hc]
      have h' : ∃ x ∈ rest, x.matchesDescription desc = true := by
        obtain ⟨x, hx1, hx2⟩ := h
        rcases List.mem_cons.mp hx1 with he | hm
        · subst he; exact absurd hx2 hc
        · exact ⟨x, hm, hx2⟩
      obtain ⟨p, hp1, hp2, hp3, hp4⟩ := ih h'
      rw [hp1]
      refine ⟨(p.1, rt :: p.2), rfl, by simp [hp2], hp3, ?_⟩
      intro x hx
      rcases List.mem_cons.mp hx with he | hm
      · subst he; simp
      · simp [hp4 x hm]

theorem findMatchingRenderTarget_mem (desc : RenderTargetDescription) :
    ∀ (pool : List RenderTarget) p, findMatchingRenderTarget pool desc = some p →
      p.1 ∈ pool ∧ ∀ x ∈ p.2, x ∈ pool := by
  intro pool
  induction pool with
  | nil => intro p h; simp [findMatchingRenderTarget] at h
  | cons rt rest ih =>
    intro p h
    simp only [findMatchingRenderTarget] at h
    by_cases hc : rt.matchesDescription desc = true
    · rw [if_pos hc] at h
      cases h
      exact ⟨by simp, fun x hx => by simp [hx]⟩
    · rw [if_neg hc] at h
      cases hf : findMatchingRenderTarget rest desc with
      | none => rw [hf] at h; exact Option.noConfusion h
      | some q =>
        rw [hf] at h
        cases h
        obtain ⟨hq1, hq2⟩ := ih q hf
        refine ⟨by simp [hq1], ?_⟩
        intro x hx
        rcases List.mem_cons.mp hx with he | hm
        · subst he; simp
        · simp [hq2 x hm]

/-- C8: before each scheduling cycle every pooled resource ages by one;
the end-of-cycle sweep destroys (logging the device destruction) and removes
exactly the pooled resources that have reached the age threshold of one
unused cycle; and a request matching some pooled entry is served from the
pool with age reset and with the device untouched — no new allocation. -/
theorem pool_aging_eviction_reuse (st : SceneGraphExecutor)
    (desc : RenderTargetDescription) :
    ((st.ageDeadPools).renderTargetDeadPool =
        st.renderTargetDeadPool.map (fun rt => { rt with age := rt.age + 1 }) ∧
      (st.ageDeadPools).resolveTextureDeadPool =
        st.resolveTextureDeadPool.map (fun rt => { rt with age := rt.age + 1 })) ∧
    (destroyAgedRenderTargets st.device st.renderTargetDeadPool =
        (st.renderTargetDeadPool.filter (fun rt => rt.age < ageThreshold),
         (st.renderTargetDeadPool.filter (fun rt => ageThreshold ≤ rt.age)).foldl
           (fun d rt => rt.destroy d) st.device) ∧
      destroyAgedResolveTextures st.device st.resolveTextureDeadPool =
        (st.resolveTextureDeadPool.filter (fun rt => rt.age < ageThreshold),
         (st.resolveTextureDeadPool.filter (fun rt => ageThreshold ≤ rt.age)).foldl
           (fun d rt => rt.destroy d) st.device)) ∧
    ((∃ rt ∈ st.renderTargetDeadPool, rt.matchesDescription desc = true) →
      ∃ rt' st', st.acquireRenderTargetForDescription desc = some (rt', st') ∧
        rt'.age = 0 ∧ rt'.matchesDescription desc = true ∧
        st'.device = st.device ∧
        ∀ x ∈ st'.renderTargetDeadPool, x ∈ st.renderTargetDeadPool) := by
  refine ⟨⟨rfl, rfl⟩,
    ⟨destroyAgedRenderTargets_spec st.renderTargetDeadPool st.device,
     destroyAgedResolveTextures_spec st.resolveTextureDeadPool st.device⟩, ?_⟩
  intro h
  obtain ⟨p, hp1, hp2, hp3, hp4⟩ := findMatchingRenderTarget_of_exists desc _ h
  refine ⟨{ p.1 with age := 0 }, { st with renderTargetDeadPool := p.2 }, ?_, rfl, ?_, rfl, hp4⟩
  · simp [SceneGraphExecutor.acquireRenderTargetForDescription, hp1]
  · simpa [RenderTarget.matchesDescription] using hp3

/-- A pooled render target matching the description below, used as concrete
input for the reuse part of the pool theorem. -/
def c8PoolEntry : RenderTarget :=
  { debugName := "p", pixelFormat := 3, width := 4, height := 4, numSamples := 1,
    needsClear := true, texture := some 0, attachment := 1, age := 1 }

def c8Desc : RenderTargetDescription :=
  { debugName := "p", pixelFormat := 3, width := 4, height := 4, numSamples := 1 }

def c8State : SceneGraphExecutor :=
  { device := { nextId := 2 }, renderTargetDeadPool := [c8PoolEntry] }

theorem pool_aging_eviction_reuse_witness :
    (∃ rt ∈ c8State.renderTargetDeadPool, rt.matchesDescription c8Desc = true) ∧
    (∃ rt' st', c8State.acquireRenderTargetForDescription c8Desc = some (rt', st') ∧
      rt'.age = 0 ∧ rt'.matchesDescription c8Desc = true ∧
      st'.device = c8State.device ∧
      ∀ x ∈ st'.renderTargetDeadPool, x ∈ c8State.renderTargetDeadPool) :=
  ⟨⟨c8PoolEntry, by simp [c8State], by decide⟩,
   (pool_aging_eviction_reuse c8State c8Desc).2.2
     ⟨c8PoolEntry, by simp [c8State], by decide⟩⟩

/-!
## Characterization of the per-id acquire and release primitives
-/

theorem releaseRT_char (st st' : SceneGraphExecutor) (id : Nat)
    (h : st.releaseRenderTargetForID (some id) = some st') :
    0 < st.renderTargetUseCount id ∧
    st'.renderTargetUseCount =
      setAt st.renderTargetUseCount id (st.renderTargetUseCount id - 1) ∧
    st'.resolveTextureUseCount = st.resolveTextureUseCount ∧
    st'.resolveTextureForID = st.resolveTextureForID ∧
    st'.device = st.device ∧
    st'.resolveTextureDeadPool = st.resolveTextureDeadPool ∧
    ((st.renderTargetUseCount id - 1 = 0 ∧
        ∃ rt, st.renderTargetAliveForID id = some rt ∧
          st'.renderTargetAliveForID = setAt st.renderTargetAliveForID id none ∧
          st'.renderTargetDeadPool =
            st.renderTargetDeadPool ++ [{ rt with needsClear := true }]) ∨
      (st.renderTargetUseCount id - 1 ≠ 0 ∧
        st'.renderTargetAliveForID = st.renderTargetAliveForID ∧
        st'.renderTargetDeadPool = st.renderTargetDeadPool)) := by
  simp only [SceneGraphExecutor.releaseRenderTargetForID] at h
  by_cases hc : 0 < st.renderTargetUseCount id
  · rw [if_pos hc] at h
    by_cases hz : st.renderTargetUseCount id - 1 = 0
    · rw [if_pos hz] at h
      cases ha : st.renderTargetAliveForID id with
      | none => rw [ha] at h; exact Option.noConfusion h
      | some rt =>
        rw [ha] at h
        cases h
        exact ⟨hc, rfl, rfl, rfl, rfl, rfl, Or.inl ⟨hz, rt, rfl, rfl, rfl⟩⟩
    · rw [if_neg hz] at h
      cases h
      exact ⟨hc, rfl, rfl, rfl, rfl, rfl, Or.inr ⟨hz, rfl, rfl⟩⟩
  · rw [if_neg hc] at h
    exact Option.noConfusion h

theorem releaseRT_total (st : SceneGraphExecutor) (id : Nat) (rt : RenderTarget)
    (hAlive : st.renderTargetAliveForID id = some rt)
    (hCount : 0 < st.renderTargetUseCount id) :
    ∃ st', st.releaseRenderTargetForID (some id) = some st' := by
  simp only [SceneGraphExecutor.releaseRenderTargetForID]
  rw [if_pos hCount]
  by_cases hz : st.renderTargetUseCount id - 1 = 0
  · rw [if_pos hz, hAlive]
    exact ⟨_, rfl⟩
  · rw [if_neg hz]
    exact ⟨_, rfl⟩

/-!
## C9: one physical target per live id
-/

/-- C9: while an id's use count stays positive every touching pass gets the
same physical target out of the alive table; the target is installed lazily
on first touch, a release with remaining references leaves the table entry
untouched, and only the release that drops the count to zero removes the
entry and returns the object to the pool. -/
theorem alive_table_stability (st : SceneGraphExecutor) (graph : SceneGraph)
    (id : Nat) (rt : RenderTarget) :
    (st.renderTargetAliveForID id = some rt → 0 < st.renderTargetUseCount id →
      st.acquireRenderTargetForID graph (some id) = some (some rt, st)) ∧
    (st.renderTargetAliveForID id = none →
      ∀ r, st.acquireRenderTargetForID graph (some id) = some r →
        ∃ rt', r.1 = some rt' ∧ r.2.renderTargetAliveForID id = some rt') ∧
    (st.renderTargetAliveForID id = some rt → 1 < st.renderTargetUseCount id →
      ∃ st', st.releaseRenderTargetForID (some id) = some st' ∧
        st'.renderTargetAliveForID id = some rt ∧
        st'.renderTargetUseCount id = st.renderTargetUseCount id - 1 ∧
        st'.renderTargetDeadPool = st.renderTargetDeadPool) ∧
    (st.renderTargetAliveForID id = some rt → st.renderTargetUseCount id = 1 →
      ∃ st', st.releaseRenderTargetForID (some id) = some st' ∧
        st'.renderTargetAliveForID id = none ∧
        st'.renderTargetUseCount id = 0 ∧
        st'.renderTargetDeadPool =
          st.renderTargetDeadPool ++ [{ rt with needsClear := true }]) := by
  refine ⟨?_, ?_, ?_, ?_⟩
  · intro hAlive hCount
    simp only [SceneGraphExecutor.acquireRenderTargetForID]
    rw [if_pos hCount, hAlive]
  · intro hAlive r h
    simp only [SceneGraphExecutor.acquireRenderTargetForID] at h
    by_cases hc : 0 < st.renderTargetUseCount id
    · rw [if_pos hc] at h
      simp only [hAlive] at h
      cases hd : graph.renderTargetDescriptions[id]? with
      | none => simp only [hd] at h; exact Option.noConfusion h
      | some desc =>
        simp only [hd] at h
        cases hq : st.acquireRenderTargetForDescription desc with
        | none => simp only [hq] at h; exact Option.noConfusion h
        | some p =>
          simp only [hq, Option.some.injEq] at h
          rw [← h]
          exact ⟨p.1, rfl, by simp [setAt]⟩
    · rw [if_neg hc] at h
      exact Option.noConfusion h
  · intro hAlive hCount
    obtain ⟨st', h⟩ := releaseRT_total st id rt hAlive (by omega)
    obtain ⟨_, hcnt, _, _, _, _, hcase⟩ := releaseRT_char st st' id h
    rcases hcase with ⟨hz, _⟩ | ⟨_, halive, hpool⟩
    · omega
    · exact ⟨st', h, by rw [halive, hAlive], by rw [hcnt]; simp [setAt], hpool⟩
  · intro hAlive hCount
    obtain ⟨st', h⟩ := releaseRT_total st id rt hAlive (by omega)
    obtain ⟨_, hcnt, _, _, _, _, hcase⟩ := releaseRT_char st st' id h
    rcases hcase with ⟨hz, rt2, hrt2, halive, hpool⟩ | ⟨hz, _⟩
    · rw [hAlive] at hrt2
      cases hrt2
      refine ⟨st', h, by rw [halive]; simp [setAt], by rw [hcnt]; simp [setAt]; omega, hpool⟩
    · omega

def c9RT : RenderTarget :=
  { debugName := "w", pixelFormat := 0, width := 1, height := 1, numSamples := 1,
    needsClear := false, texture := some 0, attachment := 1, age := 0 }

def c9State : SceneGraphExecutor :=
  { device := { nextId := 2 },
    renderTargetUseCount := fun j => if j = 0 then 2 else 0,
    renderTargetAliveForID := fun j => if j = 0 then some c9RT else none }

theorem alive_table_stability_witness :
    (c9State.renderTargetAliveForID 0 = some c9RT ∧ 0 < c9State.renderTargetUseCount 0 ∧
      1 < c9State.renderTargetUseCount 0) ∧
    c9State.acquireRenderTargetForID {} (some 0) = some (some c9RT, c9State) ∧
    (∃ st', c9State.releaseRenderTargetForID (some 0) = some st' ∧
      st'.renderTargetAliveForID 0 = some c9RT ∧
      st'.renderTargetUseCount 0 = c9State.renderTargetUseCount 0 - 1 ∧
      st'.renderTargetDeadPool = c9State.renderTargetDeadPool) :=
  ⟨⟨rfl, by decide, by decide⟩,
   (alive_table_stability c9State {} 0 c9RT).1 rfl (by decide),
   (alive_table_stability c9State {} 0 c9RT).2.2.1 rfl (by decide)⟩

/-!
## C4: single-sampled surfaces need no physical copy
-/

/-- C4: when a copy is requested of a surface whose live physical target is
texture-backed (single-sampled), the output side acquires no physical copy
and leaves the state untouched (the pass resolves to null), and the input
side hands every consumer the surface's own backing texture while releasing
exactly one reference of the surface. -/
theorem singleSampled_copy_passthrough (st : SceneGraphExecutor)
    (graph : SceneGraph) (srcId rid : Nat) (rt : RenderTarget) (t : GfxTexture)
    (hAlive : st.renderTargetAliveForID srcId = some rt)
    (hTex : rt.texture = some t)
    (hMap : graph.resolveTextureRenderTargetIDs[rid]? = some srcId)
    (hUse : 0 < st.resolveTextureUseCount rid)
    (hTab : st.resolveTextureForID rid = none)
    (hRT : 0 < st.renderTargetUseCount srcId) :
    st.acquireResolveTextureOutputForID graph (some srcId) (some rid) = some (none, st) ∧
    ∃ st', st.acquireResolveTextureInputTextureForID graph rid = some (t, st') ∧
      st'.renderTargetUseCount srcId = st.renderTargetUseCount srcId - 1 ∧
      (∀ j, j ≠ srcId → st'.renderTargetUseCount j = st.renderTargetUseCount j) ∧
      st'.resolveTextureForID = st.resolveTextureForID ∧
      st'.resolveTextureUseCount = st.resolveTextureUseCount := by
  constructor
  · simp only [SceneGraphExecutor.acquireResolveTextureOutputForID, hMap]
    rw [if_pos (by simp), if_pos hUse]
    simp only [hAlive, hTex]
  · obtain ⟨st', hrel⟩ := releaseRT_total st srcId rt hAlive hRT
    obtain ⟨_, hcnt, hres, hfor, _, _, _⟩ := releaseRT_char st st' srcId hrel
    refine ⟨st', ?_, ?_, ?_, hfor, hres⟩
    · simp only [SceneGraphExecutor.acquireResolveTextureInputTextureForID, hMap, hTab,
        hAlive, hrel, hTex]
    · rw [hcnt]; simp [setAt]
    · intro j hj; rw [hcnt]; simp [setAt, hj]

def c4RT : RenderTarget :=
  { debugName := "s", pixelFormat := 0, width := 2, height := 2, numSamples := 1,
    needsClear := false, texture := some 5, attachment := 6, age := 0 }

def c4Graph : SceneGraph :=
  { renderTargetDescriptions := [{ debugName := "s", width := 2, height := 2, numSamples := 1 }],
    resolveTextureRenderTargetIDs := [0],
    passes := [] }

def c4State : SceneGraphExecutor :=
  { device := { nextId := 7 },
    renderTargetUseCount := fun j => if j = 0 then 1 else 0,
    resolveTextureUseCount := fun j => if j = 0 then 1 else 0,
    renderTargetAliveForID := fun j => if j = 0 then some c4RT else none }

theorem singleSampled_copy_passthrough_witness :
    (c4State.renderTargetAliveForID 0 = some c4RT ∧ c4RT.texture = some 5 ∧
      c4Graph.resolveTextureRenderTargetIDs[0]? = some 0 ∧
      0 < c4State.resolveTextureUseCount 0 ∧
      c4State.resolveTextureForID 0 = none ∧
      0 < c4State.renderTargetUseCount 0) ∧
    (c4State.acquireResolveTextureOutputForID c4Graph (some 0) (some 0) =
        some (none, c4State) ∧
      ∃ st', c4State.acquireResolveTextureInputTextureForID c4Graph 0 = some (5, st') ∧
        st'.renderTargetUseCount 0 = c4State.renderTargetUseCount 0 - 1 ∧
        (∀ j, j ≠ 0 → st'.renderTargetUseCount j = c4State.renderTargetUseCount j) ∧
        st'.resolveTextureForID = c4State.resolveTextureForID ∧
        st'.resolveTextureUseCount = c4State.resolveTextureUseCount) :=
  ⟨⟨rfl, rfl, rfl, by decide, rfl, by decide⟩,
   singleSampled_copy_passthrough c4State c4Graph 0 0 c4RT 5 rfl rfl rfl
     (by decide) rfl (by decide)⟩

/-!
## C10: the per-copy-id table outlives the use count
-/

/-- C10: when a resolve texture's use count reaches zero it is pushed onto
its dead pool but stays in the per-copy-id table; resolving an input from the
table returns that texture and leaves the table intact; executing the passes
leaves the table intact, and only the end of execGraph clears it; and the
execution-scope lookup of a declared input returns the texture captured for
it at scheduling time. -/
theorem resolve_table_persists (st : SceneGraphExecutor) (graph : SceneGraph)
    (rid : Nat) (rtex : ResolveTexture) (pres : Option GfxTexture) :
    (st.resolveTextureUseCount rid = 1 → st.resolveTextureForID rid = some rtex →
      ∃ st', st.releaseResolveTextureInputForID (some rid) = some st' ∧
        st'.resolveTextureForID = st.resolveTextureForID ∧
        st'.resolveTextureDeadPool = st.resolveTextureDeadPool ++ [rtex] ∧
        st'.resolveTextureUseCount rid = 0) ∧
    (st.resolveTextureForID rid = some rtex →
      ∀ r, st.acquireResolveTextureInputTextureForID graph rid = some r →
        r.1 = rtex.texture ∧ r.2.resolveTextureForID = st.resolveTextureForID) ∧
    (∀ sps : List ScheduledPass,
      (sps.foldl SceneGraphExecutor.execPass st).resolveTextureForID =
        st.resolveTextureForID) ∧
    (∀ r, st.execGraph graph pres = some r →
      ∀ i, r.2.resolveTextureForID i = none) ∧
    (∀ sp i, sp.pass.resolveTextureInputIDs.findIdx? (fun x => x == rid) = some i →
      getResolveTextureForID sp rid = sp.resolveTextureInputTextures[i]?) := by
  have hfold : ∀ (sps : List ScheduledPass) (s : SceneGraphExecutor),
      (sps.foldl SceneGraphExecutor.execPass s).resolveTextureForID =
        s.resolveTextureForID := by
    intro sps
    induction sps with
    | nil => intro s; rfl
    | cons sp rest ih => intro s; simp only [List.foldl_cons]; rw [ih]; rfl
  refine ⟨?_, ?_, fun sps => hfold sps st, ?_, ?_⟩
  · intro hCount hTab
    simp only [SceneGraphExecutor.releaseResolveTextureInputForID, hCount, hTab]
    refine ⟨_, rfl, rfl, rfl, by simp [setAt]⟩
  · intro hTab r h
    simp only [SceneGraphExecutor.acquireResolveTextureInputTextureForID, hTab] at h
    cases hr : st.releaseRenderTargetForID graph.resolveTextureRenderTargetIDs[rid]? with
    | none => rw [hr] at h; exact Option.noConfusion h
    | some st1 =>
      rw [hr] at h
      cases h
      cases hm : graph.resolveTextureRenderTargetIDs[rid]? with
      | none =>
        rw [hm] at hr
        simp only [SceneGraphExecutor.releaseRenderTargetForID] at hr
        cases hr
        exact ⟨rfl, rfl⟩
      | some rtid =>
        rw [hm] at hr
        obtain ⟨_, _, _, hfor, _, _, _⟩ := releaseRT_char st st1 rtid hr
        exact ⟨rfl, hfor⟩
  · intro r h i
    simp only [SceneGraphExecutor.execGraph] at h
    cases hs : st.scheduleGraph graph pres with
    | none => rw [hs] at h; exact Option.noConfusion h
    | some r0 =>
      rw [hs] at h
      cases h
      rfl
  · intro sp i h
    simp only [getResolveTextureForID, h]

def c10Tex : ResolveTexture :=
  { debugName := "x", pixelFormat := 0, width := 2, height := 2, texture := 9, age := 0 }

def c10State : SceneGraphExecutor :=
  { device := { nextId := 10 },
    resolveTextureUseCount := fun j => if j = 0 then 1 else 0,
    resolveTextureForID := fun j => if j = 0 then some c10Tex else none }

theorem resolve_table_persists_witness :
    (c10State.resolveTextureUseCount 0 = 1 ∧
      c10State.resolveTextureForID 0 = some c10Tex) ∧
    (∃ st', c10State.releaseResolveTextureInputForID (some 0) = some st' ∧
      st'.resolveTextureForID = c10State.resolveTextureForID ∧
      st'.resolveTextureDeadPool = c10State.resolveTextureDeadPool ++ [c10Tex] ∧
      st'.resolveTextureUseCount 0 = 0) :=
  ⟨⟨rfl, rfl⟩, (resolve_table_persists c10State {} 0 c10Tex none).1 rfl rfl⟩

/-!
## C6: what the present flag redirects
-/

def c6Desc0 : RenderTargetDescription :=
  { debugName := "color", pixelFormat := 1, width := 2, height := 2, numSamples := 1,
    colorClearColor := some 4 }

def c6Desc1 : RenderTargetDescription :=
  { debugName := "depth", pixelFormat := 2, width := 2, height := 2, numSamples := 1,
    depthClearValue := some 0, stencilClearValue := some 0 }

/-- A present-flagged pass binding both slots. -/
def c6Pass : SceneGraphPassImpl :=
  { renderTargetIDs := fun s => match s with | Color0 => some 0 | DepthStencil => some 1,
    doPresent := true }

def c6Graph : SceneGraph :=
  { renderTargetDescriptions := [c6Desc0, c6Desc1],
    resolveTextureRenderTargetIDs := [],
    passes := [c6Pass] }

def c6Run : Option (List ScheduledPass × SceneGraphExecutor) :=
  SceneGraphExecutor.scheduleGraph {} c6Graph (some 77)

def firstScheduled (r : Option (List ScheduledPass × SceneGraphExecutor)) :
    ScheduledPass :=
  match r with
  | some p => p.1.headD default
  | none => default

/-- C6 counterexample: scheduling a present pass that binds both slots with
present texture 77 resolves Color0 to 77 but leaves the DepthStencil resolve
target null — the bound DepthStencil slot's resolved output is not the
externally supplied presentation texture. -/
theorem present_pass_depthStencil_counterexample :
    c6Run.isSome = true ∧
    (firstScheduled c6Run).pass.doPresent = true ∧
    (firstScheduled c6Run).pass.renderTargetIDs DepthStencil = some 1 ∧
    (firstScheduled c6Run).descriptor.colorResolveTo = some 77 ∧
    (firstScheduled c6Run).descriptor.depthStencilResolveTo = none :=
  ⟨rfl, rfl, rfl, rfl, rfl⟩

/-- The amended behaviour of a present pass in schedulePass: only the Color0
resolve target is redirected to the presentation texture. -/
def presentProp (st : SceneGraphExecutor) (graph : SceneGraph)
    (pass : SceneGraphPassImpl) (pres : Option GfxTexture) : Prop :=
  ∀ r, st.schedulePass graph pass pres = some r →
    r.1.descriptor.colorResolveTo = pres ∧
    (pass.resolveTextureOutputIDs DepthStencil = none →
      r.1.descriptor.depthStencilResolveTo = none)

/-- C6 amended: for a pass flagged present the Color0 slot's resolved output
target is the externally supplied presentation texture (the per-slot copy
output for Color0 is bypassed), while the DepthStencil slot is unaffected by
the flag and follows the ordinary copy-output path — in particular it stays
null when no copy output was requested for it. -/
theorem present_redirects_color0_only (st : SceneGraphExecutor) (graph : SceneGraph)
    (pass : SceneGraphPassImpl) (pres : Option GfxTexture)
    (hp : pass.doPresent = true) :
    presentProp st graph pass pres := by
  unfold presentProp
  intro r h
  simp only [SceneGraphExecutor.schedulePass, hp, if_true] at h
  cases ha : st.scheduleAttachments graph pass with
  | none => rw [ha] at h; exact Option.noConfusion h
  | some a =>
    simp only [ha] at h
    cases hc1 : clearValueFor graph (pass.renderTargetIDs Color0) a.1.1
        (fun d => d.colorClearColor) with
    | none => simp only [hc1] at h; exact Option.noConfusion h
    | some colorClearColor =>
      simp only [hc1] at h
      cases hc2 : clearValueFor graph (pass.renderTargetIDs DepthStencil) a.1.2
          (fun d => d.depthClearValue) with
      | none => simp only [hc2] at h; exact Option.noConfusion h
      | some depthClearValue =>
        simp only [hc2] at h
        cases hc3 : clearValueFor graph (pass.renderTargetIDs DepthStencil) a.1.2
            (fun d => d.stencilClearValue) with
        | none => simp only [hc3] at h; exact Option.noConfusion h
        | some stencilClearValue =>
          simp only [hc3] at h
          cases ho : a.2.acquireResolveTextureOutputForID graph
              (pass.renderTargetIDs DepthStencil)
              (pass.resolveTextureOutputIDs DepthStencil) with
          | none => simp only [ho] at h; exact Option.noConfusion h
          | some r2 =>
            simp only [ho] at h
            by_cases hcomp : attachmentsCompatible a.1.1 a.1.2 = true
            · rw [if_pos hcomp] at h
              cases hin : ((r2.2.markTouched (pass.renderTargetIDs Color0)).markTouched
                  (pass.renderTargetIDs DepthStencil)).scheduleInputs graph
                  pass.resolveTextureInputIDs with
              | none => simp only [hin] at h; exact Option.noConfusion h
              | some q =>
                simp only [hin] at h
                cases hr1 : q.2.releaseRenderTargets
                    [pass.renderTargetIDs Color0, pass.renderTargetIDs DepthStencil] with
                | none => simp only [hr1] at h; exact Option.noConfusion h
                | some st1 =>
                  simp only [hr1] at h
                  cases hr2 : st1.releaseResolveTextureInputs pass.resolveTextureInputIDs with
                  | none => simp only [hr2] at h; exact Option.noConfusion h
                  | some st2 =>
                    simp only [hr2, Option.some.injEq] at h
                    cases h
                    constructor
                    · rfl
                    · intro hds
                      have : r2.1 = none := by
                        rw [hds] at ho
                        simp only [SceneGraphExecutor.acquireResolveTextureOutputForID] at ho
                        cases ho
                        rfl
                      simpa using this
            · rw [if_neg hcomp] at h
              exact Option.noConfusion h

def c6PresState : SceneGraphExecutor :=
  { renderTargetUseCount := fun j => if j ≤ 1 then 1 else 0 }

theorem present_redirects_color0_only_witness :
    c6Pass.doPresent = true ∧ presentProp c6PresState c6Graph c6Pass (some 77) :=
  ⟨rfl, present_redirects_color0_only c6PresState c6Graph c6Pass (some 77) rfl⟩

/-!
## Invariants used by the scheduling proofs

RTInv: an id with a live physical target has a positive use count.
PoolInv: every pooled render target is flagged needsClear.
-/

def RTInv (st : SceneGraphExecutor) : Prop :=
  ∀ id rt, st.renderTargetAliveForID id = some rt → 0 < st.renderTargetUseCount id

def PoolInv (st : SceneGraphExecutor) : Prop :=
  ∀ rt ∈ st.renderTargetDeadPool, rt.needsClear = true

theorem acquireRTdesc_char (st : SceneGraphExecutor) (desc : RenderTargetDescription)
    (r : RenderTarget × SceneGraphExecutor)
    (h : st.acquireRenderTargetForDescription desc = some r) :
    r.2.renderTargetUseCount = st.renderTargetUseCount ∧
    r.2.resolveTextureUseCount = st.resolveTextureUseCount ∧
    r.2.renderTargetAliveForID = st.renderTargetAliveForID ∧
    r.2.resolveTextureForID = st.resolveTextureForID ∧
    r.2.resolveTextureDeadPool = st.resolveTextureDeadPool ∧
    (∀ e ∈ r.2.renderTargetDeadPool, e ∈ st.renderTargetDeadPool) ∧
    (PoolInv st → r.1.needsClear = true) := by
  simp only [SceneGraphExecutor.acquireRenderTargetForDescription] at h
  cases hf : findMatchingRenderTarget st.renderTargetDeadPool desc with
  | some p =>
    rw [hf] at h
    cases h
    obtain ⟨hmem, hsub⟩ := findMatchingRenderTarget_mem desc st.renderTargetDeadPool p hf
    exact ⟨rfl, rfl, rfl, rfl, rfl, hsub, fun hp => hp p.1 hmem⟩
  | none =>
    rw [hf] at h
    simp only [RenderTarget.create] at h
    by_cases h1 : 1 ≤ desc.numSamples
    · rw [if_pos h1] at h
      by_cases h2 : 1 < desc.numSamples
      · rw [if_pos h2] at h
        cases h
        exact ⟨rfl, rfl, rfl, rfl, rfl, fun e he => he, fun _ => rfl⟩
      · rw [if_neg h2] at h
        cases h
        exact ⟨rfl, rfl, rfl, rfl, rfl, fun e he => he, fun _ => rfl⟩
    · rw [if_neg h1] at h
      exact Option.noConfusion h

theorem acquireResDesc_char (st : SceneGraphExecutor) (desc : RenderTargetDescription)
    (r : ResolveTexture × SceneGraphExecutor)
    (h : st.acquireResolveTextureForDescription desc = some r) :
    r.2.renderTargetUseCount = st.renderTargetUseCount ∧
    r.2.resolveTextureUseCount = st.resolveTextureUseCount ∧
    r.2.renderTargetAliveForID = st.renderTargetAliveForID ∧
    r.2.resolveTextureForID = st.resolveTextureForID ∧
    r.2.renderTargetDeadPool = st.renderTargetDeadPool := by
  simp only [SceneGraphExecutor.acquireResolveTextureForDescription] at h
  cases hf : findMatchingResolveTexture st.resolveTextureDeadPool desc with
  | some p =>
    simp only [hf] at h
    cases hr : p.1.reset desc with
    | none => simp only [hr] at h; exact Option.noConfusion h
    | some rt =>
      simp only [hr] at h
      cases h
      exact ⟨rfl, rfl, rfl, rfl, rfl⟩
  | none =>
    simp only [hf] at h
    cases h
    exact ⟨rfl, rfl, rfl, rfl, rfl⟩

theorem acquireResOut_char (st : SceneGraphExecutor) (graph : SceneGraph)
    (x y : Option Nat) (r : Option GfxTexture × SceneGraphExecutor)
    (h : st.acquireResolveTextureOutputForID graph x y = some r) :
    r.2.renderTargetUseCount = st.renderTargetUseCount ∧
    r.2.resolveTextureUseCount = st.resolveTextureUseCount ∧
    r.2.renderTargetAliveForID = st.renderTargetAliveForID ∧
    r.2.renderTargetDeadPool = st.renderTargetDeadPool := by
  cases y with
  | none =>
    simp only [SceneGraphExecutor.acquireResolveTextureOutputForID] at h
    cases h
    exact ⟨rfl, rfl, rfl, rfl⟩
  | some rid =>
    simp only [SceneGraphExecutor.acquireResolveTextureOutputForID] at h
    by_cases he : (x == graph.resolveTextureRenderTargetIDs[rid]?) = true
    · rw [if_pos he] at h
      by_cases hu : 0 < st.resolveTextureUseCount rid
      · rw [if_pos hu] at h
        cases x with
        | none => exact Option.noConfusion h
        | some srcId =>
          cases ha : st.renderTargetAliveForID srcId with
          | none => simp only [ha] at h; exact Option.noConfusion h
          | some renderTarget =>
            simp only [ha] at h
            cases ht : renderTarget.texture with
            | some tex =>
              simp only [ht] at h
              cases h
              exact ⟨rfl, rfl, rfl, rfl⟩
            | none =>
              simp only [ht] at h
              cases hfid : st.resolveTextureForID rid with
              | some resolveTexture =>
                simp only [hfid] at h
                cases h
                exact ⟨rfl, rfl, rfl, rfl⟩
              | none =>
                simp only [hfid] at h
                cases hd : graph.renderTargetDescriptions[srcId]? with
                | none => simp only [hd] at h; exact Option.noConfusion h
                | some desc =>
                  simp only [hd] at h
                  cases hq : st.acquireResolveTextureForDescription desc with
                  | none => simp only [hq] at h; exact Option.noConfusion h
                  | some p =>
                    simp only [hq, Option.some.injEq] at h
                    rw [← h]
                    obtain ⟨h1, h2, h3, _, h5⟩ := acquireResDesc_char st desc p hq
                    exact ⟨h1, h2, h3, h5⟩
      · rw [if_neg hu] at h
        exact Option.noConfusion h
    · rw [if_neg he] at h
      exact Option.noConfusion h

theorem markTouched_char (st : SceneGraphExecutor) (x : Option Nat) :
    (st.markTouched x).renderTargetUseCount = st.renderTargetUseCount ∧
    (st.markTouched x).resolveTextureUseCount = st.resolveTextureUseCount ∧
    (st.markTouched x).resolveTextureForID = st.resolveTextureForID ∧
    (st.markTouched x).renderTargetDeadPool = st.renderTargetDeadPool ∧
    (st.markTouched x).resolveTextureDeadPool = st.resolveTextureDeadPool ∧
    (∀ j, ((st.markTouched x).renderTargetAliveForID j).isSome =
      (st.renderTargetAliveForID j).isSome) := by
  cases x with
  | none => exact ⟨rfl, rfl, rfl, rfl, rfl, fun j => rfl⟩
  | some id =>
    cases ha : st.renderTargetAliveForID id with
    | none =>
      simp [SceneGraphExecutor.markTouched, ha]
    | some rt =>
      simp only [SceneGraphExecutor.markTouched, ha, true_and]
      intro j
      by_cases hj : j = id
      · subst hj; simp [setAt, ha]
      · simp [setAt, hj]

theorem acquireRTid_char (st : SceneGraphExecutor) (graph : SceneGraph)
    (x : Option Nat) (r : Option RenderTarget × SceneGraphExecutor)
    (h : st.acquireRenderTargetForID graph x = some r) :
    r.2.renderTargetUseCount = st.renderTargetUseCount ∧
    r.2.resolveTextureUseCount = st.resolveTextureUseCount ∧
    r.2.resolveTextureForID = st.resolveTextureForID ∧
    r.2.resolveTextureDeadPool = st.resolveTextureDeadPool ∧
    (∀ e ∈ r.2.renderTargetDeadPool, e ∈ st.renderTargetDeadPool) ∧
    (RTInv st → RTInv r.2) ∧
    (x = none → r.1 = none ∧ r.2 = st) ∧
    (∀ id, x = some id →
      ∃ rt, r.1 = some rt ∧ r.2.renderTargetAliveForID id = some rt ∧
        ((st.renderTargetAliveForID id = some rt ∧ r.2 = st) ∨
          (st.renderTargetAliveForID id = none ∧ (PoolInv st → rt.needsClear = true) ∧
            ∀ j, j ≠ id → r.2.renderTargetAliveForID j = st.renderTargetAliveForID j))) := by
  cases x with
  | none =>
    simp only [SceneGraphExecutor.acquireRenderTargetForID] at h
    cases h
    exact ⟨rfl, rfl, rfl, rfl, fun e he => he, fun hi => hi, fun _ => ⟨rfl, rfl⟩,
      fun id hid => Option.noConfusion hid⟩
  | some id =>
    simp only [SceneGraphExecutor.acquireRenderTargetForID] at h
    by_cases hc : 0 < st.renderTargetUseCount id
    · rw [if_pos hc] at h
      cases ha : st.renderTargetAliveForID id with
      | some rt =>
        simp only [ha] at h
        cases h
        refine ⟨rfl, rfl, rfl, rfl, fun e he => he, fun hi => hi,
          fun hx => Option.noConfusion hx, ?_⟩
        intro id' hid
        cases hid
        exact ⟨rt, rfl, ha, Or.inl ⟨ha, rfl⟩⟩
      | none =>
        simp only [ha] at h
        cases hd : graph.renderTargetDescriptions[id]? with
        | none => simp only [hd] at h; exact Option.noConfusion h
        | some desc =>
          simp only [hd] at h
          cases hq : st.acquireRenderTargetForDescription desc with
          | none => simp only [hq] at h; exact Option.noConfusion h
          | some p =>
            simp only [hq, Option.some.injEq] at h
            obtain ⟨h1, h2, h3, h4, h5, h6, h7⟩ := acquireRTdesc_char st desc p hq
            rw [← h]
            refine ⟨h1, h2, h4, h5, h6, ?_, fun hx => Option.noConfusion hx, ?_⟩
            · intro hinv id' rt' hrt'
              by_cases hj : id' = id
              · subst hj
                rw [h1]
                exact hc
              · simp only [setAt, hj, if_neg hj] at hrt'
                rw [h3] at hrt'
                rw [h1]
                exact hinv id' rt' hrt'
            · intro id' hid
              cases hid
              refine ⟨p.1, rfl, by simp [setAt], Or.inr ⟨ha, h7, ?_⟩⟩
              intro j hj
              simp only [setAt, if_neg hj]
              rw [h3]
    · rw [if_neg hc] at h
      exact Option.noConfusion h

theorem scheduleAttachments_char (st : SceneGraphExecutor) (graph : SceneGraph)
    (pass : SceneGraphPassImpl)
    (a : (Option RenderTarget × Option RenderTarget) × SceneGraphExecutor)
    (h : st.scheduleAttachments graph pass = some a) :
    a.2.renderTargetUseCount = st.renderTargetUseCount ∧
    a.2.resolveTextureUseCount = st.resolveTextureUseCount ∧
    a.2.resolveTextureForID = st.resolveTextureForID ∧
    a.2.resolveTextureDeadPool = st.resolveTextureDeadPool ∧
    (∀ e ∈ a.2.renderTargetDeadPool, e ∈ st.renderTargetDeadPool) ∧
    (RTInv st → RTInv a.2) ∧
    (PoolInv st → PoolInv a.2) ∧
    (∀ id, pass.renderTargetIDs Color0 = some id →
      ∃ rt, a.1.1 = some rt ∧
        (st.renderTargetAliveForID id = some rt ∨
          (st.renderTargetAliveForID id = none ∧ (PoolInv st → rt.needsClear = true)))) ∧
    (∀ id, pass.renderTargetIDs DepthStencil = some id →
      ∃ rt, a.1.2 = some rt ∧
        (st.renderTargetAliveForID id = some rt ∨
          (st.renderTargetAliveForID id = none ∧ (PoolInv st → rt.needsClear = true)))) := by
  simp only [SceneGraphExecutor.scheduleAttachments] at h
  cases h1 : st.acquireRenderTargetForID graph (pass.renderTargetIDs Color0) with
  | none => rw [h1] at h; exact Option.noConfusion h
  | some c =>
    simp only [h1] at h
    cases h2 : c.2.acquireRenderTargetForID graph (pass.renderTargetIDs DepthStencil) with
    | none => rw [h2] at h; exact Option.noConfusion h
    | some d =>
      simp only [h2, Option.some.injEq] at h
      obtain ⟨c1, c2, c3, c4, c5, c6, _, c8⟩ := acquireRTid_char st graph _ c h1
      obtain ⟨d1, d2, d3, d4, d5, d6, _, d8⟩ := acquireRTid_char c.2 graph _ d h2
      have hsub : ∀ e ∈ d.2.renderTargetDeadPool, e ∈ st.renderTargetDeadPool :=
        fun e he => c5 e (d5 e he)
      have hpool : PoolInv st → PoolInv d.2 :=
        fun hp e he => hp e (hsub e he)
      rw [← h]
      refine ⟨by rw [d1, c1], by rw [d2, c2], by rw [d3, c3], by rw [d4, c4],
        hsub, fun hi => d6 (c6 hi), hpool, ?_, ?_⟩
      · intro id hid
        obtain ⟨rt, hrt1, _, hcase⟩ := c8 id hid
        refine ⟨rt, hrt1, ?_⟩
        rcases hcase with ⟨hs, _⟩ | ⟨hs, hnc, _⟩
        · exact Or.inl hs
        · exact Or.inr ⟨hs, hnc⟩
      · have hrel : ∀ j, c.2.renderTargetAliveForID j = st.renderTargetAliveForID j ∨
            (st.renderTargetAliveForID j = none ∧
              ∃ crt, c.2.renderTargetAliveForID j = some crt ∧
                (PoolInv st → crt.needsClear = true)) := by
          cases hc0 : pass.renderTargetIDs Color0 with
          | none =>
            obtain ⟨_, _, _, _, _, _, hnone, _⟩ := acquireRTid_char st graph _ c h1
            obtain ⟨_, hceq⟩ := hnone hc0
            rw [hceq]
            exact fun j => Or.inl rfl
          | some cid =>
            obtain ⟨crt, _, hcal, hccase⟩ := c8 cid hc0
            rcases hccase with ⟨_, hceq⟩ | ⟨hcnone, hcnc, hcother⟩
            · rw [hceq]
              exact fun j => Or.inl rfl
            · intro j
              by_cases hj : j = cid
              · subst hj
                exact Or.inr ⟨hcnone, crt, hcal, hcnc⟩
              · exact Or.inl (hcother j hj)
        intro id hid
        obtain ⟨rt, hrt1, _, hcase⟩ := d8 id hid
        refine ⟨rt, hrt1, ?_⟩
        rcases hcase with ⟨hs, _⟩ | ⟨hs, hnc, _⟩
        · rcases hrel id with hrj | ⟨hnone, crt, hcal, hcnc⟩
          · rw [hrj] at hs
            exact Or.inl hs
          · rw [hcal] at hs
            cases hs
            exact Or.inr ⟨hnone, hcnc⟩
        · rcases hrel id with hrj | ⟨hnone, crt, hcal, _⟩
          · rw [hrj] at hs
            exact Or.inr ⟨hs, fun hp => hnc (fun e he => hp e (c5 e he))⟩
          · rw [hcal] at hs
            exact Option.noConfusion hs

theorem releaseRT_extra (st st' : SceneGraphExecutor) (x : Option Nat)
    (h : st.releaseRenderTargetForID x = some st') :
    (∀ j, st.renderTargetUseCount j =
      st'.renderTargetUseCount j + (if x = some j then 1 else 0)) ∧
    st'.resolveTextureUseCount = st.resolveTextureUseCount ∧
    st'.resolveTextureForID = st.resolveTextureForID ∧
    (RTInv st → RTInv st') ∧
    (PoolInv st → PoolInv st') ∧
    (∀ j, st'.renderTargetAliveForID j = st.renderTargetAliveForID j ∨
      st'.renderTargetAliveForID j = none) := by
  cases x with
  | none =>
    simp only [SceneGraphExecutor.releaseRenderTargetForID] at h
    cases h
    exact ⟨fun j => by simp, rfl, rfl, fun hi => hi, fun hp => hp, fun j => Or.inl rfl⟩
  | some id =>
    obtain ⟨hc, hcnt, hres, hfor, _, _, hcase⟩ := releaseRT_char st st' id h
    refine ⟨?_, hres, hfor, ?_, ?_, ?_⟩
    · intro j
      rw [hcnt]
      by_cases hj : id = j
      · subst hj; simp [setAt]; omega
      · simp [setAt, Ne.symm hj, hj]
    · intro hinv j rt hrt
      rcases hcase with ⟨hz, rt0, hrt0, halive, _⟩ | ⟨hz, halive, _⟩
      · rw [halive] at hrt
        by_cases hj : j = id
        · subst hj; simp [setAt] at hrt
        · simp only [setAt, if_neg hj] at hrt
          rw [hcnt]
          simp only [setAt, if_neg hj]
          exact hinv j rt hrt
      · rw [halive] at hrt
        rw [hcnt]
        by_cases hj : j = id
        · subst hj; simp [setAt]; omega
        · simp only [setAt, if_neg hj]
          exact hinv j rt hrt
    · intro hp e he
      rcases hcase with ⟨hz, rt0, hrt0, _, hpool⟩ | ⟨hz, _, hpool⟩
      · rw [hpool] at he
        rcases List.mem_append.mp he with h1 | h1
        · exact hp e h1
        · simp at h1
          rw [h1]
      · rw [hpool] at he
        exact hp e he
    · intro j
      rcases hcase with ⟨hz, rt0, hrt0, halive, _⟩ | ⟨hz, halive, _⟩
      · rw [halive]
        by_cases hj : j = id
        · subst hj; simp [setAt]
        · simp [setAt, hj]
      · rw [halive]
        exact Or.inl rfl

theorem releaseRenderTargets_char (ids : List (Option Nat)) :
    ∀ (st st' : SceneGraphExecutor), st.releaseRenderTargets ids = some st' →
      (∀ j, st.renderTargetUseCount j =
        st'.renderTargetUseCount j + ids.countP (fun x => x == some j)) ∧
      st'.resolveTextureUseCount = st.resolveTextureUseCount ∧
      st'.resolveTextureForID = st.resolveTextureForID ∧
      (RTInv st → RTInv st') ∧
      (PoolInv st → PoolInv st') ∧
      (∀ j, st'.renderTargetAliveForID j = st.renderTargetAliveForID j ∨
        st'.renderTargetAliveForID j = none) := by
  induction ids with
  | nil =>
    intro st st' h
    simp only [SceneGraphExecutor.releaseRenderTargets] at h
    cases h
    exact ⟨fun j => by simp, rfl, rfl, fun hi => hi, fun hp => hp, fun j => Or.inl rfl⟩
  | cons x rest ih =>
    intro st st' h
    simp only [SceneGraphExecutor.releaseRenderTargets] at h
    cases h1 : st.releaseRenderTargetForID x with
    | none => rw [h1] at h; exact Option.noConfusion h
    | some st1 =>
      rw [h1] at h
      obtain ⟨e1, e2, e3, e4, e5, e6⟩ := releaseRT_extra st st1 x h1
      obtain ⟨f1, f2, f3, f4, f5, f6⟩ := ih st1 st' h
      refine ⟨?_, by rw [f2, e2], by rw [f3, e3], fun hi => f4 (e4 hi),
        fun hp => f5 (e5 hp), ?_⟩
      · intro j
        rw [e1 j, f1 j, List.countP_cons]
        by_cases hx : x = some j
        · simp [hx]; omega
        · have : ¬((x == some j) = true) := by
            simp only [beq_iff_eq]
            exact hx
          simp [hx, this]
      · intro j
        rcases f6 j with hf | hf
        · rw [hf]
          exact e6 j
        · exact Or.inr hf

theorem releaseResolveInput_extra (st st' : SceneGraphExecutor) (x : Option Nat)
    (h : st.releaseResolveTextureInputForID x = some st') :
    (∀ rid, st.resolveTextureUseCount rid =
      st'.resolveTextureUseCount rid + (if x = some rid then 1 else 0)) ∧
    st'.renderTargetUseCount = st.renderTargetUseCount ∧
    st'.renderTargetAliveForID = st.renderTargetAliveForID ∧
    st'.renderTargetDeadPool = st.renderTargetDeadPool ∧
    st'.resolveTextureForID = st.resolveTextureForID := by
  cases x with
  | none =>
    simp only [SceneGraphExecutor.releaseResolveTextureInputForID] at h
    cases h
    exact ⟨fun rid => by simp, rfl, rfl, rfl, rfl⟩
  | some rid0 =>
    simp only [SceneGraphExecutor.releaseResolveTextureInputForID] at h
    by_cases hc : 0 < st.resolveTextureUseCount rid0
    · rw [if_pos hc] at h
      have hcount : ∀ rid, st.resolveTextureUseCount rid =
          (setAt st.resolveTextureUseCount rid0 (st.resolveTextureUseCount rid0 - 1)) rid +
            (if (some rid0 : Option Nat) = some rid then 1 else 0) := by
        intro rid
        by_cases hr : rid0 = rid
        · subst hr; simp [setAt]; omega
        · simp [setAt, hr, Ne.symm hr]
      by_cases hz : st.resolveTextureUseCount rid0 - 1 = 0
      · rw [if_pos hz] at h
        cases hfid : st.resolveTextureForID rid0 with
        | some resolveTexture =>
          rw [hfid] at h
          cases h
          exact ⟨hcount, rfl, rfl, rfl, rfl⟩
        | none =>
          rw [hfid] at h
          cases h
          exact ⟨hcount, rfl, rfl, rfl, rfl⟩
      · rw [if_neg hz] at h
        cases h
        exact ⟨hcount, rfl, rfl, rfl, rfl⟩
    · rw [if_neg hc] at h
      exact Option.noConfusion h

theorem releaseResolveTextureInputs_char (ids : List Nat) :
    ∀ (st st' : SceneGraphExecutor), st.releaseResolveTextureInputs ids = some st' →
      (∀ rid, st.resolveTextureUseCount rid =
        st'.resolveTextureUseCount rid + resolveContribOf ids rid) ∧
      st'.renderTargetUseCount = st.renderTargetUseCount ∧
      st'.renderTargetAliveForID = st.renderTargetAliveForID ∧
      st'.renderTargetDeadPool = st.renderTargetDeadPool ∧
      st'.resolveTextureForID = st.resolveTextureForID := by
  induction ids with
  | nil =>
    intro st st' h
    simp only [SceneGraphExecutor.releaseResolveTextureInputs] at h
    cases h
    exact ⟨fun rid => by simp [resolveContribOf], rfl, rfl, rfl, rfl⟩
  | cons x rest ih =>
    intro st st' h
    simp only [SceneGraphExecutor.releaseResolveTextureInputs] at h
    cases h1 : st.releaseResolveTextureInputForID (some x) with
    | none => rw [h1] at h; exact Option.noConfusion h
    | some st1 =>
      rw [h1] at h
      obtain ⟨e1, e2, e3, e4, e5⟩ := releaseResolveInput_extra st st1 (some x) h1
      obtain ⟨f1, f2, f3, f4, f5⟩ := ih st1 st' h
      refine ⟨?_, by rw [f2, e2], by rw [f3, e3], by rw [f4, e4], by rw [f5, e5]⟩
      intro rid
      rw [e1 rid, f1 rid]
      simp only [resolveContribOf, List.countP_cons]
      by_cases hx : x = rid
      · subst hx; simp; omega
      · simp [hx, Ne.symm hx]

theorem acquireInputTex_char (st : SceneGraphExecutor) (graph : SceneGraph)
    (rid : Nat) (r : GfxTexture × SceneGraphExecutor)
    (h : st.acquireResolveTextureInputTextureForID graph rid = some r) :
    (∀ j, st.renderTargetUseCount j = r.2.renderTargetUseCount j +
      (if graph.resolveTextureRenderTargetIDs[rid]? = some j then 1 else 0)) ∧
    r.2.resolveTextureUseCount = st.resolveTextureUseCount ∧
    r.2.resolveTextureForID = st.resolveTextureForID ∧
    (RTInv st → RTInv r.2) ∧
    (PoolInv st → PoolInv r.2) ∧
    (∀ j, r.2.renderTargetAliveForID j = st.renderTargetAliveForID j ∨
      r.2.renderTargetAliveForID j = none) := by
  simp only [SceneGraphExecutor.acquireResolveTextureInputTextureForID] at h
  cases hfid : st.resolveTextureForID rid with
  | some resolveTexture =>
    simp only [hfid] at h
    cases h1 : st.releaseRenderTargetForID graph.resolveTextureRenderTargetIDs[rid]? with
    | none => rw [h1] at h; exact Option.noConfusion h
    | some st1 =>
      rw [h1] at h
      cases h
      exact releaseRT_extra st st1 _ h1
  | none =>
    simp only [hfid] at h
    cases hm : graph.resolveTextureRenderTargetIDs[rid]? with
    | none => simp only [hm] at h; exact Option.noConfusion h
    | some rtid =>
      simp only [hm] at h
      cases ha : st.renderTargetAliveForID rtid with
      | none => simp only [ha] at h; exact Option.noConfusion h
      | some renderTarget =>
        simp only [ha] at h
        cases h1 : st.releaseRenderTargetForID (some rtid) with
        | none => simp only [h1] at h; exact Option.noConfusion h
        | some st1 =>
          simp only [h1] at h
          cases ht : renderTarget.texture with
          | none => simp only [ht] at h; exact Option.noConfusion h
          | some tex =>
            simp only [ht] at h
            cases h
            exact releaseRT_extra st st1 _ h1

theorem scheduleInputs_char (graph : SceneGraph) (ids : List Nat) :
    ∀ (st : SceneGraphExecutor) (r : List GfxTexture × SceneGraphExecutor),
      st.scheduleInputs graph ids = some r →
      (∀ j, st.renderTargetUseCount j =
        r.2.renderTargetUseCount j + inputContrib graph ids j) ∧
      r.2.resolveTextureUseCount = st.resolveTextureUseCount ∧
      r.2.resolveTextureForID = st.resolveTextureForID ∧
      (RTInv st → RTInv r.2) ∧
      (PoolInv st → PoolInv r.2) ∧
      (∀ j, r.2.renderTargetAliveForID j = st.renderTargetAliveForID j ∨
        r.2.renderTargetAliveForID j = none) := by
  induction ids with
  | nil =>
    intro st r h
    simp only [SceneGraphExecutor.scheduleInputs] at h
    cases h
    exact ⟨fun j => by simp [inputContrib], rfl, rfl, fun hi => hi, fun hp => hp,
      fun j => Or.inl rfl⟩
  | cons rid rest ih =>
    intro st r h
    simp only [SceneGraphExecutor.scheduleInputs] at h
    cases h1 : st.acquireResolveTextureInputTextureForID graph rid with
    | none => rw [h1] at h; exact Option.noConfusion h
    | some p =>
      simp only [h1] at h
      cases h2 : p.2.scheduleInputs graph rest with
      | none => rw [h2] at h; exact Option.noConfusion h
      | some q =>
        simp only [h2, Option.some.injEq] at h
        obtain ⟨e1, e2, e3, e4, e5, e6⟩ := acquireInputTex_char st graph rid p h1
        obtain ⟨f1, f2, f3, f4, f5, f6⟩ := ih p.2 q h2
        have hr2 : r.2 = q.2 := by rw [← h]
        rw [hr2]
        refine ⟨?_, by rw [f2, e2], by rw [f3, e3], fun hi => f4 (e4 hi),
          fun hp => f5 (e5 hp), ?_⟩
        · intro j
          rw [e1 j, f1 j]
          simp only [inputContrib, List.countP_cons]
          by_cases hx : graph.resolveTextureRenderTargetIDs[rid]? = some j
          · simp [hx]; omega
          · have : ¬((graph.resolveTextureRenderTargetIDs[rid]? == some j) = true) := by
              simp only [beq_iff_eq]
              exact hx
            simp [hx, this]
        · intro j
          rcases f6 j with hf | hf
          · rw [hf]
            exact e6 j
          · exact Or.inr hf

/-- The complete accounting of one scheduled pass (Pass B step): it releases
exactly the references that Pass A counted for it, preserves the
alive-implies-counted invariant and the pooled-targets-need-clear invariant,
and never resurrects an alive entry it dropped. -/
theorem schedulePass_char (st : SceneGraphExecutor) (graph : SceneGraph)
    (pass : SceneGraphPassImpl) (pres : Option GfxTexture)
    (r : ScheduledPass × SceneGraphExecutor)
    (h : st.schedulePass graph pass pres = some r) :
    (∀ j, st.renderTargetUseCount j =
      r.2.renderTargetUseCount j + rtContrib graph pass j) ∧
    (∀ rid, st.resolveTextureUseCount rid =
      r.2.resolveTextureUseCount rid + resolveContrib pass rid) ∧
    (RTInv st → RTInv r.2) ∧
    (PoolInv st → PoolInv r.2) := by
  simp only [SceneGraphExecutor.schedulePass] at h
  cases ha : st.scheduleAttachments graph pass with
  | none => rw [ha] at h; exact Option.noConfusion h
  | some a =>
    simp only [ha] at h
    obtain ⟨a1, a2, a3, a4, a5, a6, a7, _, _⟩ := scheduleAttachments_char st graph pass a ha
    cases hc1 : clearValueFor graph (pass.renderTargetIDs Color0) a.1.1
        (fun d => d.colorClearColor) with
    | none => simp only [hc1] at h; exact Option.noConfusion h
    | some colorClearColor =>
      simp only [hc1] at h
      cases hc2 : clearValueFor graph (pass.renderTargetIDs DepthStencil) a.1.2
          (fun d => d.depthClearValue) with
      | none => simp only [hc2] at h; exact Option.noConfusion h
      | some depthClearValue =>
        simp only [hc2] at h
        cases hc3 : clearValueFor graph (pass.renderTargetIDs DepthStencil) a.1.2
            (fun d => d.stencilClearValue) with
        | none => simp only [hc3] at h; exact Option.noConfusion h
        | some stencilClearValue =>
          simp only [hc3] at h
          cases ho1 : (if pass.doPresent then some (pres, a.2)
              else a.2.acquireResolveTextureOutputForID graph (pass.renderTargetIDs Color0)
                (pass.resolveTextureOutputIDs Color0)) with
          | none => rw [ho1] at h; exact Option.noConfusion h
          | some r1 =>
            simp only [ho1] at h
            have hr1 : r1.2.renderTargetUseCount = a.2.renderTargetUseCount ∧
                r1.2.resolveTextureUseCount = a.2.resolveTextureUseCount ∧
                r1.2.renderTargetAliveForID = a.2.renderTargetAliveForID ∧
                r1.2.renderTargetDeadPool = a.2.renderTargetDeadPool := by
              by_cases hp : pass.doPresent = true
              · rw [if_pos hp] at ho1
                cases ho1
                exact ⟨rfl, rfl, rfl, rfl⟩
              · rw [if_neg hp] at ho1
                exact acquireResOut_char a.2 graph _ _ r1 ho1
            obtain ⟨q1, q2, q3, q4⟩ := hr1
            cases ho2 : r1.2.acquireResolveTextureOutputForID graph
                (pass.renderTargetIDs DepthStencil)
                (pass.resolveTextureOutputIDs DepthStencil) with
            | none => rw [ho2] at h; exact Option.noConfusion h
            | some r2 =>
              simp only [ho2] at h
              obtain ⟨w1, w2, w3, w4⟩ := acquireResOut_char r1.2 graph _ _ r2 ho2
              by_cases hcomp : attachmentsCompatible a.1.1 a.1.2 = true
              · rw [if_pos hcomp] at h
                set stm := (r2.2.markTouched (pass.renderTargetIDs Color0)).markTouched
                    (pass.renderTargetIDs DepthStencil) with hstm
                obtain ⟨m1a, m2a, _, m4a, _, m6a⟩ :=
                  markTouched_char r2.2 (pass.renderTargetIDs Color0)
                obtain ⟨m1b, m2b, _, m4b, _, m6b⟩ :=
                  markTouched_char (r2.2.markTouched (pass.renderTargetIDs Color0))
                    (pass.renderTargetIDs DepthStencil)
                cases hin : stm.scheduleInputs graph pass.resolveTextureInputIDs with
                | none => rw [hin] at h; exact Option.noConfusion h
                | some q =>
                  simp only [hin] at h
                  cases hrel1 : q.2.releaseRenderTargets
                      [pass.renderTargetIDs Color0, pass.renderTargetIDs DepthStencil] with
                  | none => rw [hrel1] at h; exact Option.noConfusion h
                  | some st1 =>
                    simp only [hrel1] at h
                    cases hrel2 : st1.releaseResolveTextureInputs
                        pass.resolveTextureInputIDs with
                    | none => rw [hrel2] at h; exact Option.noConfusion h
                    | some st2 =>
                      simp only [hrel2, Option.some.injEq] at h
                      have hr2st : r.2 = st2 := by rw [← h]
                      obtain ⟨i1, i2, i3, i4, i5, i6⟩ :=
                        scheduleInputs_char graph pass.resolveTextureInputIDs stm q hin
                      obtain ⟨l1, l2, l3, l4, l5, l6⟩ :=
                        releaseRenderTargets_char _ q.2 st1 hrel1
                      obtain ⟨k1, k2, k3, k4, k5⟩ :=
                        releaseResolveTextureInputs_char _ st1 st2 hrel2
                      have hcountStm : stm.renderTargetUseCount = st.renderTargetUseCount := by
                        rw [hstm, m1b, m1a, w1, q1, a1]
                      have hresStm : stm.resolveTextureUseCount = st.resolveTextureUseCount := by
                        rw [hstm, m2b, m2a, w2, q2, a2]
                      have hslot : ∀ j,
                          ([pass.renderTargetIDs Color0,
                            pass.renderTargetIDs DepthStencil].countP
                              (fun x => x == some j)) = slotContrib pass j := by
                        intro j
                        simp only [slotContrib, List.countP_cons, List.countP_nil]
                        by_cases h0 : pass.renderTargetIDs Color0 = some j <;>
                          by_cases h1 : pass.renderTargetIDs DepthStencil = some j <;>
                            simp [h0, h1]
                      rw [hr2st]
                      refine ⟨?_, ?_, ?_, ?_⟩
                      · intro j
                        have e1 := i1 j
                        have e2 := l1 j
                        have e3 : st1.renderTargetUseCount j = st2.renderTargetUseCount j := by
                          rw [k2]
                        rw [hcountStm] at e1
                        rw [hslot j] at e2
                        rw [e3] at e2
                        rw [rtContrib]
                        omega
                      · intro rid
                        have e1 := k1 rid
                        have e2 : q.2.resolveTextureUseCount = st.resolveTextureUseCount := by
                          rw [i2, hresStm]
                        have e3 : st1.resolveTextureUseCount = st.resolveTextureUseCount := by
                          rw [l2, e2]
                        rw [e3] at e1
                        rw [resolveContrib]
                        exact e1
                      · intro hinv
                        have hInvStm : RTInv stm := by
                          have hInvR2 : RTInv r2.2 := by
                            intro j rt hrt
                            rw [w3, q3] at hrt
                            rw [w1, q1]
                            exact a6 hinv j rt hrt
                          intro j rt hrt
                          have hsome : ((stm.renderTargetAliveForID j).isSome) = true := by
                            rw [hrt]; rfl
                          rw [hstm, m6b, m6a] at hsome
                          rw [hstm, m1b, m1a]
                          obtain ⟨rt0, hrt0⟩ := Option.isSome_iff_exists.mp hsome
                          exact hInvR2 j rt0 hrt0
                        have h1 : RTInv q.2 := i4 hInvStm
                        have h2 : RTInv st1 := l4 h1
                        intro j rt hrt
                        rw [k3] at hrt
                        rw [k2]
                        exact h2 j rt hrt
                      · intro hp
                        have hPoolStm : PoolInv stm := by
                          have : PoolInv r2.2 := by
                            intro e he
                            rw [w4, q4] at he
                            exact a7 hp e he
                          intro e he
                          rw [hstm, m4b, m4a] at he
                          exact this e he
                        have h1 : PoolInv q.2 := i5 hPoolStm
                        have h2 : PoolInv st1 := l5 h1
                        intro e he
                        rw [k4] at he
                        exact h2 e he
              · rw [if_neg hcomp] at h
                exact Option.noConfusion h

/-- Total Pass A contribution of a pass list to one render target id. -/
def totalRTContrib (graph : SceneGraph) (passes : List SceneGraphPassImpl)
    (id : Nat) : Nat :=
  (passes.map (fun p => rtContrib graph p id)).sum

/-- Total Pass A contribution of a pass list to one copy id. -/
def totalResolveContrib (passes : List SceneGraphPassImpl) (rid : Nat) : Nat :=
  (passes.map (fun p => resolveContrib p rid)).sum

theorem schedulePasses_char (graph : SceneGraph) (pres : Option GfxTexture)
    (passes : List SceneGraphPassImpl) :
    ∀ (st : SceneGraphExecutor) (r : List ScheduledPass × SceneGraphExecutor),
      st.schedulePasses graph pres passes = some r →
      (∀ j, st.renderTargetUseCount j =
        r.2.renderTargetUseCount j + totalRTContrib graph passes j) ∧
      (∀ rid, st.resolveTextureUseCount rid =
        r.2.resolveTextureUseCount rid + totalResolveContrib passes rid) ∧
      (RTInv st → RTInv r.2) ∧
      (PoolInv st → PoolInv r.2) := by
  induction passes with
  | nil =>
    intro st r h
    simp only [SceneGraphExecutor.schedulePasses] at h
    cases h
    exact ⟨fun j => by simp [totalRTContrib], fun rid => by simp [totalResolveContrib],
      fun hi => hi, fun hp => hp⟩
  | cons p rest ih =>
    intro st r h
    simp only [SceneGraphExecutor.schedulePasses] at h
    cases h1 : st.schedulePass graph p pres with
    | none => rw [h1] at h; exact Option.noConfusion h
    | some r1 =>
      simp only [h1] at h
      cases h2 : r1.2.schedulePasses graph pres rest with
      | none => rw [h2] at h; exact Option.noConfusion h
      | some q =>
        simp only [h2, Option.some.injEq] at h
        obtain ⟨e1, e2, e3, e4⟩ := schedulePass_char st graph p pres r1 h1
        obtain ⟨f1, f2, f3, f4⟩ := ih r1.2 q h2
        have hr : r.2 = q.2 := by rw [← h]
        rw [hr]
        refine ⟨?_, ?_, fun hi => f3 (e3 hi), fun hp => f4 (e4 hp)⟩
        · intro j
          rw [e1 j, f1 j]
          simp only [totalRTContrib, List.map_cons, List.sum_cons]
          omega
        · intro rid
          rw [e2 rid, f2 rid]
          simp only [totalResolveContrib, List.map_cons, List.sum_cons]
          omega

theorem scheduleAddUseCount_alive (st : SceneGraphExecutor) (graph : SceneGraph)
    (pass : SceneGraphPassImpl) :
    (st.scheduleAddUseCount graph pass).renderTargetAliveForID =
      st.renderTargetAliveForID := by
  simp only [SceneGraphExecutor.scheduleAddUseCount]
  rw [addInputUses_alive]
  cases h0 : pass.renderTargetIDs Color0 <;>
    cases h1 : pass.renderTargetIDs DepthStencil <;> simp [h0, h1]

theorem countGraphUses_char (graph : SceneGraph) (passes : List SceneGraphPassImpl) :
    ∀ (st : SceneGraphExecutor),
      (∀ id, (passes.foldl (fun s p => s.scheduleAddUseCount graph p) st).renderTargetUseCount id =
        st.renderTargetUseCount id + totalRTContrib graph passes id) ∧
      (∀ rid, (passes.foldl (fun s p => s.scheduleAddUseCount graph p) st).resolveTextureUseCount rid =
        st.resolveTextureUseCount rid + totalResolveContrib passes rid) ∧
      ((passes.foldl (fun s p => s.scheduleAddUseCount graph p) st).renderTargetAliveForID =
        st.renderTargetAliveForID) := by
  induction passes with
  | nil =>
    intro st
    exact ⟨fun id => by simp [totalRTContrib], fun rid => by simp [totalResolveContrib], rfl⟩
  | cons p rest ih =>
    intro st
    simp only [List.foldl_cons]
    obtain ⟨f1, f2, f3⟩ := ih (st.scheduleAddUseCount graph p)
    obtain ⟨g1, g2⟩ := scheduleAddUseCount_counts st graph p
    refine ⟨?_, ?_, ?_⟩
    · intro id
      rw [f1 id, g1 id]
      simp only [totalRTContrib, List.map_cons, List.sum_cons]
      omega
    · intro rid
      rw [f2 rid, g2 rid]
      simp only [totalResolveContrib, List.map_cons, List.sum_cons]
      omega
    · rw [f3, scheduleAddUseCount_alive]

/-- C1: for any graph, if the two-phase scheduling core (ageing, Pass A
counting, Pass B allocation/release over all passes) completes starting from
a state with an empty alive table, then every surface use count and every
copy use count is exactly zero and the alive table is empty — so the
assertion block of scheduleGraph never fires: whenever the core completes,
the whole of scheduleGraph (assertions included) completes. -/
theorem scheduleGraph_zero_at_end (st : SceneGraphExecutor) (graph : SceneGraph)
    (pres : Option GfxTexture)
    (hAlive : ∀ i, st.renderTargetAliveForID i = none) :
    (∀ r, st.scheduleGraphCore graph pres = some r →
      (∀ i, r.2.renderTargetUseCount i = 0) ∧
      (∀ i, r.2.resolveTextureUseCount i = 0) ∧
      (∀ i, r.2.renderTargetAliveForID i = none)) ∧
    ((st.scheduleGraphCore graph pres).isSome = true →
      (st.scheduleGraph graph pres).isSome = true) := by
  have hmain : ∀ r, st.scheduleGraphCore graph pres = some r →
      (∀ i, r.2.renderTargetUseCount i = 0) ∧
      (∀ i, r.2.resolveTextureUseCount i = 0) ∧
      (∀ i, r.2.renderTargetAliveForID i = none) := by
    intro r h
    simp only [SceneGraphExecutor.scheduleGraphCore,
      SceneGraphExecutor.countGraphUses] at h
    obtain ⟨c1, c2, c3⟩ :=
      countGraphUses_char graph graph.passes ((st.ageDeadPools).resetUseCounts)
    obtain ⟨p1, p2, p3, p4⟩ := schedulePasses_char graph pres graph.passes _ r h
    have hIcount : ∀ i,
        ((st.ageDeadPools).resetUseCounts).renderTargetUseCount i = 0 := fun _ => rfl
    have hIres : ∀ i,
        ((st.ageDeadPools).resetUseCounts).resolveTextureUseCount i = 0 := fun _ => rfl
    have hIalive : ∀ i,
        ((st.ageDeadPools).resetUseCounts).renderTargetAliveForID i = none :=
      fun i => hAlive i
    have hrt : ∀ i, r.2.renderTargetUseCount i = 0 := by
      intro i
      have e1 := c1 i
      have e2 := p1 i
      rw [hIcount i] at e1
      omega
    have hres : ∀ i, r.2.resolveTextureUseCount i = 0 := by
      intro i
      have e1 := c2 i
      have e2 := p2 i
      rw [hIres i] at e1
      omega
    have hInv : RTInv r.2 := by
      apply p3
      intro j rt hrt'
      rw [c3] at hrt'
      rw [hIalive j] at hrt'
      exact Option.noConfusion hrt'
    refine ⟨hrt, hres, ?_⟩
    intro i
    cases ho : r.2.renderTargetAliveForID i with
    | none => rfl
    | some rt =>
      have := hInv i rt ho
      rw [hrt i] at this
      omega
  refine ⟨hmain, ?_⟩
  intro hSome
  obtain ⟨r, hr⟩ := Option.isSome_iff_exists.mp hSome
  obtain ⟨hrt, hres, halive⟩ := hmain r hr
  have hcheck : r.2.checkCountsClear graph = true := by
    simp only [SceneGraphExecutor.checkCountsClear, Bool.and_eq_true, List.all_eq_true]
    refine ⟨⟨?_, ?_⟩, ?_⟩
    · intro i _
      simp [hrt i]
    · intro i _
      simp [hres i]
    · intro i _
      simp [halive i]
  simp only [SceneGraphExecutor.scheduleGraph, hr]
  rw [if_pos hcheck]
  rfl

def c1Pass : SceneGraphPassImpl :=
  { renderTargetIDs := fun s => if s = Color0 then some 0 else none }

def c1Desc : RenderTargetDescription :=
  { debugName := "t", width := 2, height := 2, numSamples := 1, colorClearColor := some 1 }

def c1Graph : SceneGraph :=
  { renderTargetDescriptions := [c1Desc],
    resolveTextureRenderTargetIDs := [],
    passes := [c1Pass] }

theorem scheduleGraph_zero_at_end_witness :
    (∀ i, ({} : SceneGraphExecutor).renderTargetAliveForID i = none) ∧
    (({} : SceneGraphExecutor).scheduleGraphCore c1Graph none).isSome = true ∧
    (({} : SceneGraphExecutor).scheduleGraph c1Graph none).isSome = true :=
  ⟨fun _ => rfl, rfl,
   (scheduleGraph_zero_at_end {} c1Graph none (fun _ => rfl)).2 rfl⟩

/-!
## C5: the needsClear / clear-vs-load policy
-/

theorem getD_of_getElem? {α : Type} [Inhabited α] (l : List α) (i : Nat) (x : α)
    (h : l[i]? = some x) : l.getD i default = x := by
  rw [List.getD_eq_getElem?_getD, h]
  rfl

theorem markTouched_sets_false (st : SceneGraphExecutor) (x : Option Nat) (j : Nat)
    (rt' : RenderTarget)
    (h : (st.markTouched x).renderTargetAliveForID j = some rt') :
    (x = some j → rt'.needsClear = false) ∧
    (x ≠ some j → st.renderTargetAliveForID j = some rt') := by
  cases x with
  | none =>
    exact ⟨fun hx => Option.noConfusion hx, fun _ => h⟩
  | some id =>
    by_cases hj : id = j
    · subst hj
      constructor
      · intro _
        cases ha : st.renderTargetAliveForID id with
        | none =>
          simp only [SceneGraphExecutor.markTouched, ha] at h
          exact Option.noConfusion h
        | some rt =>
          simp only [SceneGraphExecutor.markTouched, ha, setAt] at h
          cases h
          rfl
      · intro hx
        exact absurd rfl hx
    · constructor
      · intro hx
        cases hx
        exact absurd rfl hj
      · intro _
        simp only [SceneGraphExecutor.markTouched] at h
        cases ha : st.renderTargetAliveForID id with
        | none =>
          rw [ha] at h
          exact h
        | some rt =>
          rw [ha] at h
          simp only [setAt] at h
          rw [if_neg (fun he => hj he.symm)] at h
          exact h

/-- The clear-vs-load behaviour claimed for one scheduled pass: a bound slot
whose live target still carries needsClear gets the description's explicit
clear values, a bound slot whose live target was already touched gets load,
the first touch after a full release gets the explicit clear values (given
that every pooled target carries needsClear, which scheduling preserves),
and after the pass every bound slot's surviving alive entry has needsClear
false. -/
def needsClearProp (st : SceneGraphExecutor) (graph : SceneGraph)
    (pass : SceneGraphPassImpl) (pres : Option GfxTexture) : Prop :=
  ∀ r, st.schedulePass graph pass pres = some r →
    (∀ id rt, pass.renderTargetIDs Color0 = some id →
      st.renderTargetAliveForID id = some rt →
      r.1.descriptor.colorClearColor =
        (if rt.needsClear then
          (graph.renderTargetDescriptions.getD id default).colorClearColor else none)) ∧
    (∀ id rt, pass.renderTargetIDs DepthStencil = some id →
      st.renderTargetAliveForID id = some rt →
      r.1.descriptor.depthClearValue =
        (if rt.needsClear then
          (graph.renderTargetDescriptions.getD id default).depthClearValue else none) ∧
      r.1.descriptor.stencilClearValue =
        (if rt.needsClear then
          (graph.renderTargetDescriptions.getD id default).stencilClearValue else none)) ∧
    (PoolInv st →
      (∀ id, pass.renderTargetIDs Color0 = some id →
        st.renderTargetAliveForID id = none →
        r.1.descriptor.colorClearColor =
          (graph.renderTargetDescriptions.getD id default).colorClearColor) ∧
      (∀ id, pass.renderTargetIDs DepthStencil = some id →
        st.renderTargetAliveForID id = none →
        r.1.descriptor.depthClearValue =
          (graph.renderTargetDescriptions.getD id default).depthClearValue ∧
        r.1.descriptor.stencilClearValue =
          (graph.renderTargetDescriptions.getD id default).stencilClearValue) ∧
      PoolInv r.2) ∧
    (∀ id, (pass.renderTargetIDs Color0 = some id ∨
        pass.renderTargetIDs DepthStencil = some id) →
      ∀ rt', r.2.renderTargetAliveForID id = some rt' → rt'.needsClear = false)

/-- C5: needsClear is true exactly until a pass touches the physical target;
the touching pass's descriptor uses the explicit clear values for
color/depth/stencil, a later pass touching the same live target gets load,
and a full release flags the target needsClear again as it returns to the
pool (so the next acquisition clears once more). -/
theorem needsClear_policy (st : SceneGraphExecutor) (graph : SceneGraph)
    (pass : SceneGraphPassImpl) (pres : Option GfxTexture) :
    needsClearProp st graph pass pres ∧
    (∀ id rt st', st.renderTargetAliveForID id = some rt →
      st.renderTargetUseCount id = 1 →
      st.releaseRenderTargetForID (some id) = some st' →
      st'.renderTargetDeadPool =
        st.renderTargetDeadPool ++ [{ rt with needsClear := true }] ∧
      st'.renderTargetAliveForID id = none) := by
  constructor
  · intro r h
    simp only [SceneGraphExecutor.schedulePass] at h
    cases ha : st.scheduleAttachments graph pass with
    | none => rw [ha] at h; exact Option.noConfusion h
    | some a =>
      simp only [ha] at h
      obtain ⟨a1, a2, a3, a4, a5, a6, a7, a8, a9⟩ :=
        scheduleAttachments_char st graph pass a ha
      cases hc1 : clearValueFor graph (pass.renderTargetIDs Color0) a.1.1
          (fun d => d.colorClearColor) with
      | none => simp only [hc1] at h; exact Option.noConfusion h
      | some colorClearColor =>
        simp only [hc1] at h
        cases hc2 : clearValueFor graph (pass.renderTargetIDs DepthStencil) a.1.2
            (fun d => d.depthClearValue) with
        | none => simp only [hc2] at h; exact Option.noConfusion h
        | some depthClearValue =>
          simp only [hc2] at h
          cases hc3 : clearValueFor graph (pass.renderTargetIDs DepthStencil) a.1.2
              (fun d => d.stencilClearValue) with
          | none => simp only [hc3] at h; exact Option.noConfusion h
          | some stencilClearValue =>
            simp only [hc3] at h
            cases ho1 : (if pass.doPresent then some (pres, a.2)
                else a.2.acquireResolveTextureOutputForID graph
                  (pass.renderTargetIDs Color0) (pass.resolveTextureOutputIDs Color0)) with
            | none => rw [ho1] at h; exact Option.noConfusion h
            | some r1 =>
              simp only [ho1] at h
              cases ho2 : r1.2.acquireResolveTextureOutputForID graph
                  (pass.renderTargetIDs DepthStencil)
                  (pass.resolveTextureOutputIDs DepthStencil) with
              | none => rw [ho2] at h; exact Option.noConfusion h
              | some r2 =>
                simp only [ho2] at h
                by_cases hcomp : attachmentsCompatible a.1.1 a.1.2 = true
                · rw [if_pos hcomp] at h
                  cases hin : ((r2.2.markTouched (pass.renderTargetIDs Color0)).markTouched
                      (pass.renderTargetIDs DepthStencil)).scheduleInputs graph
                      pass.resolveTextureInputIDs with
                  | none => rw [hin] at h; exact Option.noConfusion h
                  | some q =>
                    simp only [hin] at h
                    cases hrel1 : q.2.releaseRenderTargets
                        [pass.renderTargetIDs Color0, pass.renderTargetIDs DepthStencil] with
                    | none => rw [hrel1] at h; exact Option.noConfusion h
                    | some st1 =>
                      simp only [hrel1] at h
                      cases hrel2 : st1.releaseResolveTextureInputs
                          pass.resolveTextureInputIDs with
                      | none => rw [hrel2] at h; exact Option.noConfusion h
                      | some st2 =>
                        simp only [hrel2, Option.some.injEq] at h
                        have hdesc : r.1.descriptor.colorClearColor = colorClearColor ∧
                            r.1.descriptor.depthClearValue = depthClearValue ∧
                            r.1.descriptor.stencilClearValue = stencilClearValue ∧
                            r.2 = st2 := by
                          rw [← h]
                          exact ⟨rfl, rfl, rfl, rfl⟩
                        obtain ⟨hd1, hd2, hd3, hd4⟩ := hdesc
                        have hclear1 : ∀ id rt, pass.renderTargetIDs Color0 = some id →
                            a.1.1 = some rt →
                            colorClearColor = (if rt.needsClear then
                              (graph.renderTargetDescriptions.getD id default).colorClearColor
                              else none) := by
                          intro id rt hs hrt
                          rw [hs, hrt] at hc1
                          simp only [clearValueFor] at hc1
                          by_cases hnc : rt.needsClear = true
                          · rw [if_pos hnc] at hc1
                            rw [hnc, if_pos rfl]
                            cases hd : graph.renderTargetDescriptions[id]? with
                            | none => rw [hd] at hc1; exact Option.noConfusion hc1
                            | some d =>
                              rw [hd] at hc1
                              have hc1' : (fun dd => dd.colorClearColor) d = colorClearColor := by
                                simpa using hc1
                              rw [getD_of_getElem? _ _ _ hd, ← hc1']
                          · rw [if_neg hnc] at hc1
                            cases hc1
                            have : rt.needsClear = false := by
                              simpa using hnc
                            rw [this]
                            simp
                        have hclear2 : ∀ id rt (f : RenderTargetDescription → Option Nat)
                            (v : Option Nat),
                            clearValueFor graph (pass.renderTargetIDs DepthStencil) a.1.2 f =
                              some v →
                            pass.renderTargetIDs DepthStencil = some id →
                            a.1.2 = some rt →
                            v = (if rt.needsClear then
                              f (graph.renderTargetDescriptions.getD id default) else none) := by
                          intro id rt f v hcv hs hrt
                          rw [hs, hrt] at hcv
                          simp only [clearValueFor] at hcv
                          by_cases hnc : rt.needsClear = true
                          · rw [if_pos hnc] at hcv
                            rw [hnc, if_pos rfl]
                            cases hd : graph.renderTargetDescriptions[id]? with
                            | none => rw [hd] at hcv; exact Option.noConfusion hcv
                            | some d =>
                              rw [hd] at hcv
                              have hcv' : f d = v := by
                                simpa using hcv
                              rw [getD_of_getElem? _ _ _ hd, ← hcv']
                          · rw [if_neg hnc] at hcv
                            cases hcv
                            have : rt.needsClear = false := by
                              simpa using hnc
                            rw [this]
                            simp
                        refine ⟨?_, ?_, ?_, ?_⟩
                        · intro id rt hs hAl
                          obtain ⟨rt0, hrt0, hcase⟩ := a8 id hs
                          rcases hcase with hsame | ⟨hnone, _⟩
                          · rw [hAl] at hsame
                            cases hsame
                            rw [hd1]
                            exact hclear1 id rt hs hrt0
                          · rw [hAl] at hnone
                            exact Option.noConfusion hnone
                        · intro id rt hs hAl
                          obtain ⟨rt0, hrt0, hcase⟩ := a9 id hs
                          rcases hcase with hsame | ⟨hnone, _⟩
                          · rw [hAl] at hsame
                            cases hsame
                            rw [hd2, hd3]
                            exact ⟨hclear2 id rt _ _ hc2 hs hrt0,
                              hclear2 id rt _ _ hc3 hs hrt0⟩
                          · rw [hAl] at hnone
                            exact Option.noConfusion hnone
                        · intro hp
                          refine ⟨?_, ?_, ?_⟩
                          · intro id hs hAl
                            obtain ⟨rt0, hrt0, hcase⟩ := a8 id hs
                            rcases hcase with hsame | ⟨_, hnc⟩
                            · rw [hAl] at hsame
                              exact Option.noConfusion hsame
                            · rw [hd1, hclear1 id rt0 hs hrt0, hnc hp, if_pos rfl]
                          · intro id hs hAl
                            obtain ⟨rt0, hrt0, hcase⟩ := a9 id hs
                            rcases hcase with hsame | ⟨_, hnc⟩
                            · rw [hAl] at hsame
                              exact Option.noConfusion hsame
                            · rw [hd2, hd3, hclear2 id rt0 _ _ hc2 hs hrt0,
                                hclear2 id rt0 _ _ hc3 hs hrt0, hnc hp, if_pos rfl,
                                if_pos rfl]
                              exact ⟨rfl, rfl⟩
                          · have hsp : st.schedulePass graph pass pres = some r := by
                              simp only [SceneGraphExecutor.schedulePass, ha, hc1, hc2,
                                hc3, ho1, ho2, if_pos hcomp, hin, hrel1, hrel2]
                              rw [← h]
                            exact (schedulePass_char st graph pass pres r hsp).2.2.2 hp
                        · intro id hbound rt' hrt'
                          obtain ⟨_, _, _, _, _, i6⟩ :=
                            scheduleInputs_char graph pass.resolveTextureInputIDs _ q hin
                          obtain ⟨_, _, _, _, _, l6⟩ :=
                            releaseRenderTargets_char _ q.2 st1 hrel1
                          obtain ⟨_, _, k3, _, _⟩ :=
                            releaseResolveTextureInputs_char _ st1 st2 hrel2
                          rw [hd4, k3] at hrt'
                          have hst1 : q.2.renderTargetAliveForID id = some rt' := by
                            rcases l6 id with hl | hl
                            · rw [← hl]; exact hrt'
                            · rw [hl] at hrt'; exact Option.noConfusion hrt'
                          have hstm : ((r2.2.markTouched (pass.renderTargetIDs Color0)).markTouched
                              (pass.renderTargetIDs DepthStencil)).renderTargetAliveForID id =
                                some rt' := by
                            rcases i6 id with hi | hi
                            · rw [← hi]; exact hst1
                            · rw [hi] at hst1; exact Option.noConfusion hst1
                          obtain ⟨hm1, hm2⟩ := markTouched_sets_false _ _ _ _ hstm
                          by_cases hds : pass.renderTargetIDs DepthStencil = some id
                          · exact hm1 hds
                          · have hinner := hm2 hds
                            obtain ⟨hn1, _⟩ := markTouched_sets_false _ _ _ _ hinner
                            rcases hbound with hb | hb
                            · exact hn1 hb
                            · exact absurd hb hds
                · rw [if_neg hcomp] at h
                  exact Option.noConfusion h
  · intro id rt st' hAl hCount hRel
    obtain ⟨_, _, _, _, _, _, hcase⟩ := releaseRT_char st st' id hRel
    rcases hcase with ⟨_, rt0, hrt0, halive, hpool⟩ | ⟨hz, _, _⟩
    · rw [hAl] at hrt0
      cases hrt0
      refine ⟨hpool, ?_⟩
      rw [halive]
      simp [setAt]
    · omega

def c5RT : RenderTarget :=
  { debugName := "v", pixelFormat := 0, width := 2, height := 2, numSamples := 1,
    needsClear := false, texture := some 3, attachment := 4, age := 0 }

def c5Pass : SceneGraphPassImpl :=
  { renderTargetIDs := fun s => if s = Color0 then some 0 else none }

def c5Desc : RenderTargetDescription :=
  { debugName := "v", width := 2, height := 2, numSamples := 1, colorClearColor := some 8 }

def c5Graph : SceneGraph :=
  { renderTargetDescriptions := [c5Desc],
    resolveTextureRenderTargetIDs := [],
    passes := [c5Pass] }

def c5State : SceneGraphExecutor :=
  { device := { nextId := 5 },
    renderTargetUseCount := fun j => if j = 0 then 1 else 0,
    renderTargetAliveForID := fun j => if j = 0 then some c5RT else none }

theorem needsClear_policy_witness :
    c5Pass.renderTargetIDs Color0 = some 0 ∧
    c5State.renderTargetAliveForID 0 = some c5RT ∧
    c5RT.needsClear = false ∧
    c5State.renderTargetUseCount 0 = 1 ∧
    (c5State.schedulePass c5Graph c5Pass none).isSome = true ∧
    needsClearProp c5State c5Graph c5Pass none ∧
    (∀ id rt st', c5State.renderTargetAliveForID id = some rt →
      c5State.renderTargetUseCount id = 1 →
      c5State.releaseRenderTargetForID (some id) = some st' →
      st'.renderTargetDeadPool =
        c5State.renderTargetDeadPool ++ [{ rt with needsClear := true }] ∧
      st'.renderTargetAliveForID id = none) :=
  ⟨rfl, rfl, rfl, rfl, rfl,
   (needsClear_policy c5State c5Graph c5Pass none).1,
   (needsClear_policy c5State c5Graph c5Pass none).2⟩

end SceneGraph2
